import Mathlib

/-!
Verification of the central-dashboard entitlement service.

This file gives a shallow embedding of the TypeScript source under `src/` —
the duration arithmetic of `src/lib/types.ts` (`calculateExpiryDate`), the
entitlement ledger of `src/lib/services/entitlements.service.ts`
(`checkAccess`, `grantAccess`, `reportExternalSubscription`,
`revokeEntitlementById`, `getOrCreateIdentity`, `linkEmailToIdentity`,
`createClaimToken`, `processClaim`), the purchase-event processing of
`src/lib/services/stripe.service.ts` (`handleCheckoutCompleted`,
`logWebhookEvent`), the sync dispatcher of `app-sync.service`
(`syncToApps`, `revokeAccessAndSync`) and the Stripe webhook route —
and proves or refutes the specified properties of these operations.

Modelling conventions:
* JavaScript `Date` values are modelled at day granularity as civil triples
  (year, 0-based month, 1-based day), exactly the components JS `setDate`,
  `setMonth` and `setFullYear` operate on; JS date normalization (overflow
  days carry into following months) is modelled by `normDay`.
* Emails are lists of character codes; `toLowerCase` is `toLowerStr`
  (ASCII letters, the alphabet of the application's emails).
* The Prisma database is one `DB` record of row lists; `findFirst`/`find?`
  returns the first matching row, `update` rewrites the matching rows in
  place, `create` appends a row carrying a fresh id from a counter
  (modelling autoincrement ids and `nanoid` tokens).
* Outbound effects (sync-dispatcher pushes, confirmation emails) are
  recorded in trace fields of `DB`; remote behaviour is out of scope.
* Each database operation is a total function of the explicit clock `now`
  and the state; `throw` in the source is `Except.error`.
-/

namespace CD

/-! ## Calendar model (JS `Date` day components, `src/lib/types.ts`) -/

/-- A civil date as JS exposes it: `getFullYear()`, 0-based `getMonth()`,
1-based `getDate()`. -/
structure Civil where
  year : Int
  month : Nat
  day : Nat
deriving Repr, DecidableEq

/-- Gregorian leap year, as the `Date` object implements it. -/
def isLeap (y : Int) : Bool :=
  y % 4 == 0 && (y % 100 != 0 || y % 400 == 0)

/-- Number of days of 0-based month `m` of year `y`. -/
def daysInMonth (y : Int) (m : Nat) : Nat :=
  if m = 1 then (if isLeap y then 29 else 28)
  else if m = 3 ∨ m = 5 ∨ m = 8 ∨ m = 10 then 30
  else 31

/-- A triple is a real calendar date. -/
def ValidCivil (c : Civil) : Prop :=
  c.month < 12 ∧ 1 ≤ c.day ∧ c.day ≤ daysInMonth c.year c.month

instance (c : Civil) : Decidable (ValidCivil c) := by
  unfold ValidCivil; infer_instance

/-- JS `Date` normalization of an overflowing day-of-month: days past the
end of the month carry into the following month (never clamping). The
fuel is the day count itself: every carry removes at least 28 days, so
`d` steps always suffice for a day field of `d`. -/
def normDayAux : Nat → Int → Nat → Nat → Civil
  | 0, y, m, d => ⟨y, m, d⟩
  | fuel + 1, y, m, d =>
    if d ≤ daysInMonth y m then ⟨y, m, d⟩
    else if m = 11 then normDayAux fuel (y + 1) 0 (d - daysInMonth y m)
    else normDayAux fuel y (m + 1) (d - daysInMonth y m)

/-- Normalize a (year, month < 12, day ≥ 1) triple the way constructing a
JS `Date` from components does. -/
def normDay (y : Int) (m : Nat) (d : Nat) : Civil :=
  normDayAux d y m d

/-- `date.setDate(date.getDate() + n)`: set the day field and normalize. -/
def jsAddDays (c : Civil) (n : Nat) : Civil :=
  normDay c.year c.month (c.day + n)

/-- `date.setMonth(date.getMonth() + n)`: overflowing months roll the year
forward, the day field is kept and then normalized. -/
def jsAddMonths (c : Civil) (n : Nat) : Civil :=
  normDay (c.year + ((c.month + n : Nat) / 12 : Nat)) ((c.month + n) % 12) c.day

/-- `date.setFullYear(date.getFullYear() + n)`: year moves, month and day
are kept and then normalized (Feb 29 of a leap year lands on Mar 1). -/
def jsAddYears (c : Civil) (n : Nat) : Civil :=
  normDay (c.year + n) c.month c.day

/-- `DurationType` of `src/lib/types.ts`. -/
inductive DurationType where
  | days | months | years | lifetime
deriving Repr, DecidableEq

/-- `calculateExpiryDate` of `src/lib/types.ts`: `lifetime` or a falsy
`durationValue` (missing or zero) yields `null`; otherwise the duration is
added to `now` with the JS setter of the matching unit. -/
def calculateExpiryDate (durationType : DurationType) (durationValue : Option Nat)
    (now : Civil) : Option Civil :=
  match durationType, durationValue with
  | .lifetime, _ => none
  | _, none => none
  | _, some 0 => none
  | .days, some v => some (jsAddDays now v)
  | .months, some v => some (jsAddMonths now v)
  | .years, some v => some (jsAddYears now v)

/-- Strict `<` on dates, the comparison JS performs on `Date` values
(Prisma `gt`, and `expiresAt < new Date()`). -/
def civilLt (a b : Civil) : Bool :=
  decide (a.year < b.year) ||
    (decide (a.year = b.year) &&
      (decide (a.month < b.month) ||
        (decide (a.month = b.month) && decide (a.day < b.day))))

theorem civilLt_iff (a b : Civil) :
    civilLt a b = true ↔
      (a.year < b.year ∨
        (a.year = b.year ∧
          (a.month < b.month ∨ (a.month = b.month ∧ a.day < b.day)))) := by
  simp [civilLt]

theorem daysInMonth_pos (y : Int) (m : Nat) : 28 ≤ daysInMonth y m := by
  unfold daysInMonth
  split <;> [split <;> omega; split <;> omega]

theorem normDayAux_valid (fuel : Nat) :
    ∀ y m d, m < 12 → 1 ≤ d → d ≤ fuel →
      ValidCivil (normDayAux fuel y m d) := by
  induction fuel with
  | zero => intro y m d _ h1 h2; omega
  | succ n ih =>
    intro y m d hm h1 h2
    rw [normDayAux]
    split
    · exact ⟨hm, h1, by assumption⟩
    · rename_i hgt
      have hd := daysInMonth_pos y m
      split
      · exact ih (y + 1) 0 _ (by omega) (by omega) (by omega)
      · exact ih y (m + 1) _ (by omega) (by omega) (by omega)

theorem normDay_valid (y : Int) (m d : Nat) (hm : m < 12) (hd : 1 ≤ d) :
    ValidCivil (normDay y m d) :=
  normDayAux_valid d y m d hm hd (Nat.le_refl d)

/-! ## Emails and lowercasing -/

/-- Emails as lists of character codes. -/
abbrev EmailStr := List Nat

/-- `toLowerCase` on one character code (ASCII letters, the alphabet of
the application's emails). -/
def lowerChar (c : Nat) : Nat :=
  if 65 ≤ c ∧ c ≤ 90 then c + 32 else c

/-- `email.toLowerCase()`. -/
def toLowerStr (s : EmailStr) : EmailStr := s.map lowerChar

theorem lowerChar_idem (c : Nat) : lowerChar (lowerChar c) = lowerChar c := by
  by_cases h : 65 ≤ c ∧ c ≤ 90
  · have h1 : lowerChar c = c + 32 := by unfold lowerChar; exact if_pos h
    have h2 : lowerChar (c + 32) = c + 32 := by
      unfold lowerChar; exact if_neg (by omega)
    rw [h1, h2]
  · have h1 : lowerChar c = c := by unfold lowerChar; exact if_neg h
    rw [h1, h1]

theorem toLowerStr_idem (s : EmailStr) : toLowerStr (toLowerStr s) = toLowerStr s := by
  simp [toLowerStr, Function.comp_def, lowerChar_idem]

/-- `productId.toLowerCase()` in the sync dispatcher. -/
def strLower (s : String) : String := ⟨s.data.map Char.toLower⟩

/-! ## Database rows (the Prisma schema rows the claims touch) -/

structure Identity where
  id : Nat
  primaryEmail : EmailStr
  stripeCustomerId : Option String
deriving Repr, DecidableEq

structure IdentityEmail where
  identityId : Nat
  email : EmailStr
  productId : String
deriving Repr, DecidableEq

structure Entitlement where
  id : Nat
  identityId : Nat
  productId : String
  source : String
  sourceApp : String
  bundleId : Option Nat
  grantedAt : Civil
  expiresAt : Option Civil
  revokedAt : Option Civil
  revokedReason : Option String
  stripeSubscriptionId : Option String
  stripePriceId : Option String
  amountPaid : Option Nat
  currency : Option String
deriving Repr, DecidableEq

structure Bundle where
  id : Nat
  name : String
  stripePriceId : String
  productIds : List String
  durationType : DurationType
  durationValue : Option Nat
deriving Repr, DecidableEq

structure Product where
  id : String
  hasFormSchema : Bool
deriving Repr, DecidableEq

structure ClaimToken where
  token : Nat
  identityId : Nat
  bundleId : Nat
  purchaseEmail : EmailStr
  stripeSessionId : Option String
  expiresAt : Civil
  claimed : Bool
  claimedAt : Option Civil
deriving Repr, DecidableEq

structure ProductSubmission where
  identityId : Nat
  productId : String
  formData : String
deriving Repr, DecidableEq

structure AuditEntry where
  action : String
  identityId : Nat
  productIds : List String
  adminEmail : Option String
deriving Repr, DecidableEq

structure WebhookRow where
  eventId : String
  eventType : String
  payload : String
  status : String
  errorMessage : Option String
deriving Repr, DecidableEq

/-- One push attempted by the sync dispatcher (`syncToApp` call). -/
structure SyncPush where
  app : String
  email : EmailStr
  tier : String
  reason : String
deriving Repr, DecidableEq

/-- The persistent state plus the outbound-effect traces. The `next…`
counters model autoincrement ids / fresh `nanoid` tokens. -/
structure DB where
  identities : List Identity
  identityEmails : List IdentityEmail
  entitlements : List Entitlement
  bundles : List Bundle
  products : List Product
  claimTokens : List ClaimToken
  productSubmissions : List ProductSubmission
  auditLog : List AuditEntry
  webhookLog : List WebhookRow
  syncPushes : List SyncPush
  emailsSent : Nat
  nextEntitlementId : Nat
  nextIdentityId : Nat
  nextTokenId : Nat
deriving Repr, DecidableEq

/-! ## Identity directory (`getOrCreateIdentity`, `linkEmailToIdentity`) -/

/-- Core of `getOrCreateIdentity` on the identity table: `findFirst` by
normalized primary email, else `create`; attach the Stripe customer id when
given and absent. -/
def gocCore (email : EmailStr) (stripeCustomerId : Option String)
    (st : List Identity × Nat) : Identity × (List Identity × Nat) :=
  match st.1.find? (fun i => decide (i.primaryEmail = toLowerStr email)) with
  | none =>
    let identity : Identity := ⟨st.2, toLowerStr email, stripeCustomerId⟩
    (identity, (st.1 ++ [identity], st.2 + 1))
  | some identity =>
    match stripeCustomerId, identity.stripeCustomerId with
    | some cid, none =>
      let identity' := { identity with stripeCustomerId := some cid }
      (identity', (st.1.map (fun i => if i.id = identity.id then identity' else i), st.2))
    | _, _ => (identity, st)

/-- `getOrCreateIdentity` of `entitlements.service.ts`. -/
def getOrCreateIdentity (email : EmailStr) (stripeCustomerId : Option String)
    (db : DB) : Identity × DB :=
  let (identity, st) := gocCore email stripeCustomerId (db.identities, db.nextIdentityId)
  (identity, { db with identities := st.1, nextIdentityId := st.2 })

/-- `linkEmailToIdentity`: upsert of the `(email, productId)` binding whose
update arm rebinds `identityId` (last writer wins). -/
def linkEmailToIdentity (identityId : Nat) (email : EmailStr) (productId : String)
    (db : DB) : DB :=
  match db.identityEmails.find?
      (fun b => decide (b.email = toLowerStr email ∧ b.productId = productId)) with
  | some _ =>
    { db with identityEmails := db.identityEmails.map (fun b =>
        if b.email = toLowerStr email ∧ b.productId = productId then
          { b with identityId := identityId } else b) }
  | none =>
    { db with identityEmails := db.identityEmails ++ [⟨identityId, toLowerStr email, productId⟩] }

/-- The `identityEmail.upsert` with an empty `update {}` arm used in
`reportExternalSubscription` and `handleCheckoutCompleted`: create the
binding when missing, change nothing when present. -/
def upsertIdentityEmailKeep (identityId : Nat) (email : EmailStr) (productId : String)
    (db : DB) : DB :=
  match db.identityEmails.find?
      (fun b => decide (b.email = toLowerStr email ∧ b.productId = productId)) with
  | some _ => db
  | none =>
    { db with identityEmails := db.identityEmails ++ [⟨identityId, toLowerStr email, productId⟩] }

/-! ## Entitlement ledger: grant (`grantAccess`) -/

/-- The composite key `(identityId, productId, source, sourceApp)`. -/
def entKey (e : Entitlement) : Nat × String × String × String :=
  (e.identityId, e.productId, e.source, e.sourceApp)

/-- Row filter of the `findFirst` in `grantAccess`. -/
def entMatchesKey (identityId : Nat) (productId source sourceApp : String)
    (e : Entitlement) : Bool :=
  decide (e.identityId = identityId ∧ e.productId = productId ∧
    e.source = source ∧ e.sourceApp = sourceApp)

structure GrantParams where
  identityId : Nat
  productIds : List String
  source : String
  sourceApp : String
  bundleId : Option Nat
  durationType : DurationType
  durationValue : Option Nat
  stripeSubscriptionId : Option String
  stripePriceId : Option String
  amountPaid : Option Nat
  currency : Option String
deriving Repr, DecidableEq

/-- The `update` data of `grantAccess` on an existing row: refresh bundle,
expiry and payment metadata, clear the revocation. -/
def grantUpdate (p : GrantParams) (expiresAt : Option Civil) (e : Entitlement) : Entitlement :=
  { e with bundleId := p.bundleId, expiresAt := expiresAt,
           stripeSubscriptionId := p.stripeSubscriptionId,
           stripePriceId := p.stripePriceId,
           amountPaid := p.amountPaid, currency := p.currency,
           revokedAt := none, revokedReason := none }

/-- The row the `create` of `grantAccess` inserts. -/
def grantNewEnt (p : GrantParams) (expiresAt : Option Civil) (now : Civil)
    (nid : Nat) (productId : String) : Entitlement :=
  { id := nid, identityId := p.identityId, productId := productId,
    source := p.source, sourceApp := p.sourceApp, bundleId := p.bundleId,
    grantedAt := now, expiresAt := expiresAt,
    revokedAt := none, revokedReason := none,
    stripeSubscriptionId := p.stripeSubscriptionId,
    stripePriceId := p.stripePriceId,
    amountPaid := p.amountPaid, currency := p.currency }

/-- One iteration of the `productIds.map` in `grantAccess`, on the
entitlement table and the id counter: `findFirst` on the composite key,
then `update` in place or `create`. -/
def grantOne (p : GrantParams) (expiresAt : Option Civil) (now : Civil)
    (st : List Entitlement × Nat) (productId : String) : List Entitlement × Nat :=
  match st.1.find? (entMatchesKey p.identityId productId p.source p.sourceApp) with
  | some e =>
    (st.1.map (fun r => if r.id = e.id then grantUpdate p expiresAt r else r), st.2)
  | none =>
    (st.1 ++ [grantNewEnt p expiresAt now st.2 productId], st.2 + 1)

/-- All ledger writes of one `grantAccess` call. -/
def grantEnts (p : GrantParams) (expiresAt : Option Civil) (now : Civil)
    (st : List Entitlement × Nat) : List Entitlement × Nat :=
  p.productIds.foldl (grantOne p expiresAt now) st

/-- `grantAccess` of `entitlements.service.ts`: per product an
update-or-create on the composite key, then one audit entry. -/
def grantAccess (p : GrantParams) (now : Civil) (db : DB) : DB :=
  let expiresAt := calculateExpiryDate p.durationType p.durationValue now
  let st := grantEnts p expiresAt now (db.entitlements, db.nextEntitlementId)
  { db with entitlements := st.1, nextEntitlementId := st.2,
            auditLog := db.auditLog ++ [⟨"grant", p.identityId, p.productIds, none⟩] }

/-! ## Sync dispatcher (`app-sync.service`) -/

/-- The keys of `APP_CONFIG`. -/
def appConfigKeys : List String := ["rezume", "aicoach"]

/-- `syncToApps`: map the product ids to configured apps and record one
push per app (remote delivery is out of scope, the trace records the
attempts). -/
def syncToApps (productIds : List String) (email : EmailStr) (tier : String)
    (reason : String) (db : DB) : DB :=
  let appsToSync := appConfigKeys.filter (fun k => productIds.any (fun p => strLower p == k))
  { db with syncPushes := db.syncPushes ++ appsToSync.map (fun k => ⟨k, email, tier, reason⟩) }

/-- `revokeAccessAndSync`: tier `free` push. -/
def revokeAccessAndSync (email : EmailStr) (productIds : List String) (reason : String)
    (db : DB) : DB :=
  syncToApps productIds email "free" reason db

/-! ## Access check (`checkAccess`) -/

/-- The `where` filter of the entitlement `include` in `checkAccess`:
this product, not revoked, never expiring or expiring strictly after now. -/
def entForProductActive (productId : String) (now : Civil) (e : Entitlement) : Bool :=
  decide (e.productId = productId) && e.revokedAt.isNone &&
    (match e.expiresAt with | none => true | some x => civilLt now x)

/-- The rows `checkAccess` sees for an identity and product. -/
def activeEntsFor (db : DB) (identityId : Nat) (productId : String) (now : Civil) :
    List Entitlement :=
  db.entitlements.filter
    (fun e => decide (e.identityId = identityId) && entForProductActive productId now e)

/-- `orderBy grantedAt desc` followed by `[0]`: the most recently granted
row (the first one in table order on ties). -/
def pickLatest : List Entitlement → Option Entitlement
  | [] => none
  | e :: es =>
    some (es.foldl (fun best x => if civilLt best.grantedAt x.grantedAt then x else best) e)

structure AccessResult where
  hasAccess : Bool
  product : String
  source : Option String
  bundleName : Option String
  expires : Option (Option Civil)
  grantedAt : Option Civil
deriving Repr, DecidableEq

def noAccess (productId : String) : AccessResult :=
  ⟨false, productId, none, none, none, none⟩

/-- `entitlement.bundle?.name` through the `include`. -/
def bundleNameFor (db : DB) (bundleId : Option Nat) : Option String :=
  match bundleId with
  | none => none
  | some bid => (db.bundles.find? (fun b => decide (b.id = bid))).map (·.name)

/-- `checkEntitlementAccess` of `entitlements.service.ts`. -/
def checkEntitlementAccess (db : DB) (now : Civil) (e : Entitlement)
    (productId : String) : AccessResult :=
  if e.revokedAt.isSome then noAccess productId
  else if (match e.expiresAt with | some x => civilLt x now | none => false) then
    noAccess productId
  else ⟨true, productId, some e.source, bundleNameFor db e.bundleId,
        some e.expiresAt, some e.grantedAt⟩

/-- `checkAccess` of `entitlements.service.ts`: resolve via the
`(email, productId)` binding, else via primary email; take the most
recently granted active row; absent identity or empty row set is a
plain no-access result. -/
def checkAccess (email : EmailStr) (productId : String) (now : Civil) (db : DB) :
    AccessResult :=
  match db.identityEmails.find?
      (fun b => decide (b.email = toLowerStr email ∧ b.productId = productId)) with
  | some binding =>
    match db.identities.find? (fun i => decide (i.id = binding.identityId)) with
    | none => noAccess productId
    | some _ =>
      match pickLatest (activeEntsFor db binding.identityId productId now) with
      | none => noAccess productId
      | some e => checkEntitlementAccess db now e productId
  | none =>
    match db.identities.find? (fun i => decide (i.primaryEmail = toLowerStr email)) with
    | none => noAccess productId
    | some identity =>
      match pickLatest (activeEntsFor db identity.id productId now) with
      | none => noAccess productId
      | some e => checkEntitlementAccess db now e productId

/-! ## Single-row revoke (`revokeEntitlementById`) -/

/-- The active-row filter of the `remainingActive` count: not revoked and
not expired at `now`. -/
def activeAt (now : Civil) (e : Entitlement) : Bool :=
  e.revokedAt.isNone && (match e.expiresAt with | none => true | some x => civilLt now x)

/-- The fallback reason string `revokeEntitlementById` passes to the sync
dispatcher. -/
def revokeSingleReason (reason adminEmail : Option String) : String :=
  match reason with
  | some r => r
  | none =>
    match adminEmail with
    | some a => "Access revoked via Central Dashboard by " ++ a
    | none => "Access revoked via Central Dashboard"

/-- `revokeEntitlementById`: look the row and its identity up, revoke that
one row, audit, recount the active rows of the same `(identity, product)`,
and dispatch the `free` sync only when none remain and the identity has a
(truthy) primary email. -/
def revokeEntitlementById (entitlementId : Nat) (reason : Option String)
    (adminEmail : Option String) (now : Civil) (db : DB) : Except String DB :=
  match db.entitlements.find? (fun e => decide (e.id = entitlementId)) with
  | none => .error "Entitlement not found"
  | some entitlement =>
    match db.identities.find? (fun i => decide (i.id = entitlement.identityId)) with
    | none => .error "Entitlement not found"
    | some identity =>
      let db1 := { db with entitlements := db.entitlements.map (fun (e : Entitlement) =>
        if e.id = entitlementId then
          { e with revokedAt := some now, revokedReason := reason } else e) }
      let db2 := { db1 with auditLog := db1.auditLog ++
        [⟨"revoke_single", entitlement.identityId, [entitlement.productId], adminEmail⟩] }
      let remainingActive : Nat := (db2.entitlements.filter (fun e =>
        decide (e.identityId = entitlement.identityId ∧
          e.productId = entitlement.productId) && activeAt now e)).length
      if remainingActive = 0 ∧ identity.primaryEmail ≠ [] then
        .ok (revokeAccessAndSync identity.primaryEmail [entitlement.productId]
          (revokeSingleReason reason adminEmail) db2)
      else .ok db2

/-! ## External-subscription reporter (`reportExternalSubscription`) -/

inductive ReportAction where
  | grant | revoke
deriving Repr, DecidableEq

structure ReportParams where
  email : EmailStr
  productId : String
  action : ReportAction
  sourceApp : String
  stripeSubscriptionId : Option String
  stripePriceId : Option String
  amountPaid : Option Nat
  currency : Option String
  expiresAt : Option Civil
  reason : Option String
deriving Repr, DecidableEq

/-- The subscription-id narrowing `...(stripeSubscriptionId ? { … } : {})`
of the revoke filter. -/
def subIdMatches (filt : Option String) (v : Option String) : Bool :=
  match filt with
  | some sid => decide (v = some sid)
  | none => true

/-- The `updateMany` filter of the revoke arm: rows of this identity and
product with `source = "direct"` and this `sourceApp`, narrowed to the
reported subscription id when one was supplied. -/
def reportRevokeFilter (identityId : Nat) (productId sourceApp : String)
    (subId : Option String) (e : Entitlement) : Bool :=
  entMatchesKey identityId productId "direct" sourceApp e &&
    subIdMatches subId e.stripeSubscriptionId

/-- The fallback revocation reason of the report revoke arm. -/
def reportRevokeReason (p : ReportParams) : String :=
  match p.reason with
  | some r => r
  | none => "Revoked by " ++ p.sourceApp

/-- The row the grant arm of `reportExternalSubscription` creates. -/
def reportNewEnt (p : ReportParams) (now : Civil) (identityId nid : Nat) : Entitlement :=
  { id := nid, identityId := identityId,
    productId := p.productId, source := "direct", sourceApp := p.sourceApp,
    bundleId := none, grantedAt := now, expiresAt := p.expiresAt,
    revokedAt := none, revokedReason := none,
    stripeSubscriptionId := p.stripeSubscriptionId,
    stripePriceId := p.stripePriceId,
    amountPaid := p.amountPaid, currency := p.currency }

/-- The `update` data of the grant arm (no `bundleId`: the direct row is
independent of bundle rows). -/
def reportGrantUpdate (p : ReportParams) (e : Entitlement) : Entitlement :=
  { e with stripeSubscriptionId := p.stripeSubscriptionId,
           stripePriceId := p.stripePriceId,
           amountPaid := p.amountPaid, currency := p.currency,
           expiresAt := p.expiresAt,
           revokedAt := none, revokedReason := none }

/-- `reportExternalSubscription`: resolve or create the identity, bind the
email for the product (keep arm empty), then either refresh-or-create the
`(identity, product, "direct", sourceApp)` row or revoke exactly the rows
the filter names; one audit entry either way. -/
def reportExternalSubscription (p : ReportParams) (now : Civil) (db : DB) : DB :=
  let (identity, db1) := getOrCreateIdentity (toLowerStr p.email) none db
  let db2 := upsertIdentityEmailKeep identity.id (toLowerStr p.email) p.productId db1
  match p.action with
  | .grant =>
    let db3 :=
      match db2.entitlements.find? (entMatchesKey identity.id p.productId "direct" p.sourceApp) with
      | some e =>
        { db2 with entitlements := db2.entitlements.map (fun (r : Entitlement) =>
            if r.id = e.id then reportGrantUpdate p r else r) }
      | none =>
        { db2 with
          entitlements :=
            db2.entitlements ++ [reportNewEnt p now identity.id db2.nextEntitlementId],
          nextEntitlementId := db2.nextEntitlementId + 1 }
    { db3 with auditLog := db3.auditLog ++ [⟨"external_grant", identity.id, [p.productId], none⟩] }
  | .revoke =>
    let db3 := { db2 with entitlements := db2.entitlements.map (fun (e : Entitlement) =>
      if reportRevokeFilter identity.id p.productId p.sourceApp p.stripeSubscriptionId e then
        { e with revokedAt := some now, revokedReason := some (reportRevokeReason p) }
      else e) }
    { db3 with auditLog := db3.auditLog ++ [⟨"external_revoke", identity.id, [p.productId], none⟩] }

/-! ## Claim workflow (`createClaimToken`, `processClaim`) -/

/-- `createClaimToken`: fresh token (nanoid modelled by the counter),
30-day expiry window. -/
def createClaimToken (identityId bundleId : Nat) (purchaseEmail : EmailStr)
    (stripeSessionId : Option String) (now : Civil) (db : DB) : ClaimToken × DB :=
  let ct : ClaimToken := ⟨db.nextTokenId, identityId, bundleId, purchaseEmail,
    stripeSessionId, jsAddDays now 30, false, none⟩
  (ct, { db with claimTokens := db.claimTokens ++ [ct], nextTokenId := db.nextTokenId + 1 })

structure ProductData where
  email : EmailStr
  formData : Option String
deriving Repr, DecidableEq

/-- What the initial `findUnique` with its `include` hands the rest of
`processClaim`. -/
structure ClaimCtx where
  tokenRow : ClaimToken
  bundle : Bundle
  identity : Identity
deriving Repr, DecidableEq

/-- The read-and-validate phase of `processClaim`: unknown token, already
claimed and expired are the three thrown errors; the `include` resolves
the bundle and identity rows. -/
def validateClaim (token : Nat) (now : Civil) (db : DB) : Except String ClaimCtx :=
  match db.claimTokens.find? (fun t => decide (t.token = token)) with
  | none => .error "Invalid claim token"
  | some ct =>
    if ct.claimed then .error "Token already claimed"
    else if civilLt ct.expiresAt now then .error "Token expired"
    else
      match db.bundles.find? (fun b => decide (b.id = ct.bundleId)),
            db.identities.find? (fun i => decide (i.id = ct.identityId)) with
      | some bundle, some identity => .ok ⟨ct, bundle, identity⟩
      | _, _ => .error "Invalid claim token"

/-- One iteration of the email-binding / form-data loop of `processClaim`:
bind the supplied email when non-empty, persist form data when provided. -/
def claimLinkStep (identityId : Nat) (pe : String → Option ProductData)
    (d : DB) (productId : String) : DB :=
  match pe productId with
  | none => d
  | some pd =>
    let d1 := if pd.email ≠ [] then linkEmailToIdentity identityId pd.email productId d else d
    match pd.formData with
    | some fd =>
      { d1 with productSubmissions := d1.productSubmissions ++ [⟨identityId, productId, fd⟩] }
    | none => d1

/-- The email-binding / form-data loop of `processClaim`. -/
def claimLinkPhase (ctx : ClaimCtx) (pe : String → Option ProductData) (db : DB) : DB :=
  ctx.bundle.productIds.foldl (claimLinkStep ctx.identity.id pe) db

/-- The grant parameters of the single `grantAccess` call of `processClaim`. -/
def claimGrantParams (ctx : ClaimCtx) : GrantParams :=
  { identityId := ctx.identity.id, productIds := ctx.bundle.productIds,
    source := "bundle", sourceApp := "central", bundleId := some ctx.bundle.id,
    durationType := ctx.bundle.durationType,
    durationValue := ctx.bundle.durationValue,
    stripeSubscriptionId := none, stripePriceId := none,
    amountPaid := none, currency := none }

/-- The single `grantAccess` call of `processClaim`. -/
def claimGrantPhase (ctx : ClaimCtx) (now : Civil) (db : DB) : DB :=
  grantAccess (claimGrantParams ctx) now db

/-- The `claimToken.update` of `processClaim`: an unconditional write of
`claimed := true` keyed only by the token (no claimed-still-false guard). -/
def claimMarkPhase (token : Nat) (now : Civil) (db : DB) : DB :=
  { db with claimTokens := db.claimTokens.map (fun t =>
      if t.token = token then { t with claimed := true, claimedAt := some now } else t) }

/-- The final audit append of `processClaim`. -/
def claimAuditPhase (ctx : ClaimCtx) (db : DB) : DB :=
  { db with auditLog := db.auditLog ++ [⟨"claim", ctx.identity.id, ctx.bundle.productIds, none⟩] }

/-- `processClaim`'s writes in source order, as separately persisted
steps (there is no surrounding transaction in the source). -/
def claimWriteSeq (ctx : ClaimCtx) (token : Nat) (pe : String → Option ProductData)
    (now : Civil) : List (DB → DB) :=
  [claimLinkPhase ctx pe, claimGrantPhase ctx now, claimMarkPhase token now, claimAuditPhase ctx]

def runWrites (fs : List (DB → DB)) (db : DB) : DB :=
  fs.foldl (fun d f => f d) db

/-- `processClaim` interrupted after its validation and the first `k`
writes: the state a mid-sequence persistence failure leaves behind. -/
def processClaimUpTo (k : Nat) (token : Nat) (pe : String → Option ProductData)
    (now : Civil) (db : DB) : Except String DB :=
  (validateClaim token now db).map (fun ctx => runWrites ((claimWriteSeq ctx token pe now).take k) db)

/-- `processClaim` of `entitlements.service.ts`, run to completion. -/
def processClaim (token : Nat) (pe : String → Option ProductData)
    (now : Civil) (db : DB) : Except String DB :=
  processClaimUpTo 4 token pe now db

/-- The `claimed` flag of a token as stored. -/
def tokenClaimed (token : Nat) (db : DB) : Bool :=
  match db.claimTokens.find? (fun t => decide (t.token = token)) with
  | some t => t.claimed
  | none => false

/-! ## Purchase-event processor (`handleCheckoutCompleted`, webhook route) -/

structure CheckoutSession where
  sessionId : String
  customerEmail : Option EmailStr
  customerId : Option String
  /-- The price id of the first line item; `none` models an empty
  line-item list or a line item without a price (both thrown). -/
  lineItemPriceId : Option String
deriving Repr, DecidableEq

inductive CheckoutAction where
  | notBundle
  | claimTokenCreated (token : Nat)
  | accessGranted
deriving Repr, DecidableEq

structure CheckoutResult where
  handled : Bool
  action : CheckoutAction
deriving Repr, DecidableEq

/-- `handleCheckoutCompleted` of `stripe.service.ts`: resolve the bundle by
price (no match is handled=false, not an error), resolve or create the
identity, hand form-requiring bundles to the claim workflow, otherwise bind
every product email, grant the whole bundle and send one confirmation
email. -/
def handleCheckoutCompleted (s : CheckoutSession) (now : Civil) (db : DB) :
    Except String (CheckoutResult × DB) :=
  match s.customerEmail with
  | none => .error "No customer email in session"
  | some customerEmail =>
    match s.lineItemPriceId with
    | none => .error "No line items in session"
    | some priceId =>
      match db.bundles.find? (fun b => decide (b.stripePriceId = priceId)) with
      | none => .ok (⟨false, .notBundle⟩, db)
      | some bundle =>
        let (identity, db1) := getOrCreateIdentity customerEmail s.customerId db
        let productsWithForms := db1.products.filter
          (fun p => decide (p.id ∈ bundle.productIds) && p.hasFormSchema)
        if productsWithForms = [] then
          let db2 := bundle.productIds.foldl
            (fun d productId => upsertIdentityEmailKeep identity.id customerEmail productId d) db1
          let db3 := grantAccess
            { identityId := identity.id, productIds := bundle.productIds,
              source := "bundle", sourceApp := "central", bundleId := some bundle.id,
              durationType := bundle.durationType, durationValue := bundle.durationValue,
              stripeSubscriptionId := none, stripePriceId := none,
              amountPaid := none, currency := none } now db2
          let db4 := { db3 with emailsSent := db3.emailsSent + 1 }
          .ok (⟨true, .accessGranted⟩, db4)
        else
          let (ct, db2) := createClaimToken identity.id bundle.id customerEmail
            (some s.sessionId) now db1
          .ok (⟨true, .claimTokenCreated ct.token⟩, db2)

/-- `logWebhookEvent` of `stripe.service.ts`: upsert keyed by the
externally supplied event id; the update arm refreshes only status and
error message. -/
def logWebhookEvent (eventId eventType payload status : String)
    (errorMessage : Option String) (db : DB) : DB :=
  match db.webhookLog.find? (fun w => decide (w.eventId = eventId)) with
  | some _ =>
    { db with webhookLog := db.webhookLog.map (fun w =>
        if w.eventId = eventId then { w with status := status, errorMessage := errorMessage }
        else w) }
  | none =>
    { db with webhookLog := db.webhookLog ++ [⟨eventId, eventType, payload, status, errorMessage⟩] }

/-- The webhook event data the route dispatches on. The claims concern the
`checkout.session.completed` arm; every other event type here stands for
the route's default arm (logged `ignored`). -/
inductive WebhookEventData where
  | checkout (s : CheckoutSession)
  | other
deriving Repr, DecidableEq

structure StripeEvent where
  eventId : String
  eventType : String
  payload : String
  data : WebhookEventData
deriving Repr, DecidableEq

/-- The `POST` handler of the Stripe webhook route (signature already
verified): dispatch, then log the event keyed by its id; a thrown
processing error is caught and logged `failed` (the checkout handler
throws only before its first write, so the state it logs over is the
incoming one). -/
def processStripeWebhookEvent (e : StripeEvent) (now : Civil) (db : DB) : DB :=
  match e.data with
  | .other => logWebhookEvent e.eventId e.eventType e.payload "ignored" none db
  | .checkout s =>
    match handleCheckoutCompleted s now db with
    | .ok (r, db') =>
      logWebhookEvent e.eventId e.eventType e.payload
        (if r.handled then "success" else "ignored") none db'
    | .error m => logWebhookEvent e.eventId e.eventType e.payload "failed" (some m) db

/-! ## Well-formedness invariants of the state -/

/-- The entitlement table carries distinct ids, all below the
autoincrement counter. -/
def EntsWF (l : List Entitlement) (next : Nat) : Prop :=
  (∀ e ∈ l, e.id < next) ∧ (l.map (fun e => e.id)).Nodup

/-- The identity table carries distinct ids, all below the counter. -/
def IdsWF (l : List Identity) (next : Nat) : Prop :=
  (∀ i ∈ l, i.id < next) ∧ (l.map (fun i => i.id)).Nodup

/-- The claim C5 invariant: no two entitlement rows share the composite
`(identityId, productId, source, sourceApp)` key. -/
def KeyUnique (l : List Entitlement) : Prop :=
  (l.map entKey).Nodup

def WF (db : DB) : Prop :=
  EntsWF db.entitlements db.nextEntitlementId ∧ IdsWF db.identities db.nextIdentityId

instance (l : List Entitlement) (next : Nat) : Decidable (EntsWF l next) := by
  unfold EntsWF; infer_instance

instance (l : List Identity) (next : Nat) : Decidable (IdsWF l next) := by
  unfold IdsWF; infer_instance

instance (l : List Entitlement) : Decidable (KeyUnique l) := by
  unfold KeyUnique; infer_instance

instance (db : DB) : Decidable (WF db) := by
  unfold WF; infer_instance

/-! ## Generic list lemmas (find?, update maps, appends) -/

theorem find?_map_of_pred_inv {α : Type} (g : α → α) (P : α → Bool) :
    ∀ l : List α, (∀ x ∈ l, P (g x) = P x) →
      (l.map g).find? P = (l.find? P).map g := by
  intro l
  induction l with
  | nil => intro _; rfl
  | cons a t ih =>
    intro h
    have ha := h a (List.mem_cons_self a t)
    by_cases hp : P a = true
    · rw [List.map_cons, List.find?_cons_of_pos _ (ha.trans hp),
        List.find?_cons_of_pos _ hp]
      rfl
    · have hp' : P a = false := by
        cases hP : P a
        · rfl
        · exact absurd hP hp
      rw [List.map_cons, List.find?_cons_of_neg _ (by rw [ha, hp']; simp),
        List.find?_cons_of_neg _ (by rw [hp']; simp)]
      exact ih (fun x hx => h x (List.mem_cons_of_mem a hx))

theorem map_id_of_fix {α : Type} (f : α → α) (q : α → Prop) [DecidablePred q] :
    ∀ l : List α, (∀ x ∈ l, q x → f x = x) →
      (l.map fun x => if q x then f x else x) = l := by
  intro l
  induction l with
  | nil => intro _; rfl
  | cons a t ih =>
    intro h
    rw [List.map_cons, ih (fun x hx => h x (List.mem_cons_of_mem a hx))]
    by_cases hq : q a
    · rw [if_pos hq, h a (List.mem_cons_self a t) hq]
    · rw [if_neg hq]

theorem find?_eq_some_of_unique {α : Type} (P : α → Bool) (e : α) :
    ∀ l : List α, e ∈ l → P e = true → (∀ x ∈ l, P x = true → x = e) →
      l.find? P = some e := by
  intro l
  induction l with
  | nil => intro h; cases h
  | cons a t ih =>
    intro hmem hPe huniq
    by_cases hp : P a = true
    · rw [List.find?_cons_of_pos _ hp, huniq a (List.mem_cons_self a t) hp]
    · have hp' : P a = false := by
        cases hP : P a
        · rfl
        · exact absurd hP hp
      rw [List.find?_cons_of_neg _ (by rw [hp']; simp)]
      have hmem' : e ∈ t := by
        cases List.mem_cons.mp hmem with
        | inl h => exact absurd (h ▸ hPe) hp
        | inr h => exact h
      exact ih hmem' hPe (fun x hx => huniq x (List.mem_cons_of_mem a hx))

theorem nodup_map_inj {α β : Type} {f : α → β} {l : List α}
    (h : (l.map f).Nodup) {x y : α} (hx : x ∈ l) (hy : y ∈ l) (hf : f x = f y) :
    x = y :=
  List.inj_on_of_nodup_map h hx hy hf

/-! ## Lemmas about one `grantAccess` ledger step -/

theorem entMatchesKey_iff (i : Nat) (pid s a : String) (e : Entitlement) :
    entMatchesKey i pid s a e = true ↔ entKey e = (i, pid, s, a) := by
  simp [entMatchesKey, entKey, Prod.ext_iff, and_assoc]

theorem grantUpdate_id (p : GrantParams) (ex : Option Civil) (e : Entitlement) :
    (grantUpdate p ex e).id = e.id := rfl

theorem entKey_grantUpdate (p : GrantParams) (ex : Option Civil) (e : Entitlement) :
    entKey (grantUpdate p ex e) = entKey e := rfl

theorem grantUpdate_idem (p : GrantParams) (ex : Option Civil) (e : Entitlement) :
    grantUpdate p ex (grantUpdate p ex e) = grantUpdate p ex e := rfl

theorem entMatchesKey_grantUpdate (i : Nat) (pid s a : String)
    (p : GrantParams) (ex : Option Civil) (e : Entitlement) :
    entMatchesKey i pid s a (grantUpdate p ex e) = entMatchesKey i pid s a e := by
  simp [entMatchesKey, grantUpdate]

/-- After a grant step for `pid` the first key match for `pid` is a fixed
point of the update data: re-granting rewrites it to itself. -/
def grantFixed (p : GrantParams) (ex : Option Civil) (pid : String)
    (l : List Entitlement) : Prop :=
  ∃ r, l.find? (entMatchesKey p.identityId pid p.source p.sourceApp) = some r ∧
    grantUpdate p ex r = r

/-- The update map of the `some` branch of `grantOne` preserves the
match status of every row. -/
theorem grantOne_pred_inv (p : GrantParams) (ex : Option Civil) (e : Entitlement)
    (i : Nat) (pid s a : String) (x : Entitlement) :
    entMatchesKey i pid s a (if x.id = e.id then grantUpdate p ex x else x) =
      entMatchesKey i pid s a x := by
  by_cases hid : x.id = e.id
  · rw [if_pos hid, entMatchesKey_grantUpdate]
  · rw [if_neg hid]

theorem grantOne_found (p : GrantParams) (ex : Option Civil) (now : Civil)
    (st : List Entitlement × Nat) (pid : String) (e : Entitlement)
    (hf : st.1.find? (entMatchesKey p.identityId pid p.source p.sourceApp) = some e) :
    grantOne p ex now st pid =
      (st.1.map (fun r => if r.id = e.id then grantUpdate p ex r else r), st.2) := by
  unfold grantOne
  rw [hf]

theorem grantOne_notFound (p : GrantParams) (ex : Option Civil) (now : Civil)
    (st : List Entitlement × Nat) (pid : String)
    (hf : st.1.find? (entMatchesKey p.identityId pid p.source p.sourceApp) = none) :
    grantOne p ex now st pid = (st.1 ++ [grantNewEnt p ex now st.2 pid], st.2 + 1) := by
  unfold grantOne
  rw [hf]

theorem entMatchesKey_grantNewEnt (p : GrantParams) (ex : Option Civil) (now : Civil)
    (nid : Nat) (pid : String) :
    entMatchesKey p.identityId pid p.source p.sourceApp (grantNewEnt p ex now nid pid) = true := by
  simp [entMatchesKey, grantNewEnt]

theorem grantUpdate_grantNewEnt (p : GrantParams) (ex : Option Civil) (now : Civil)
    (nid : Nat) (pid : String) :
    grantUpdate p ex (grantNewEnt p ex now nid pid) = grantNewEnt p ex now nid pid := rfl

theorem grantOne_fixed (p : GrantParams) (ex : Option Civil) (now : Civil)
    (st : List Entitlement × Nat) (pid : String) :
    grantFixed p ex pid (grantOne p ex now st pid).1 := by
  cases hf : st.1.find? (entMatchesKey p.identityId pid p.source p.sourceApp) with
  | some e =>
    rw [grantOne_found p ex now st pid e hf]
    refine ⟨grantUpdate p ex e, ?_, grantUpdate_idem p ex e⟩
    rw [find?_map_of_pred_inv _ _ st.1 (fun x _ => grantOne_pred_inv p ex e _ _ _ _ x), hf]
    simp
  | none =>
    rw [grantOne_notFound p ex now st pid hf]
    refine ⟨grantNewEnt p ex now st.2 pid, ?_, grantUpdate_grantNewEnt p ex now st.2 pid⟩
    rw [List.find?_append, hf, Option.none_or,
      List.find?_cons_of_pos _ (entMatchesKey_grantNewEnt p ex now st.2 pid)]

theorem grantFixed_step (p : GrantParams) (ex : Option Civil) (now : Civil)
    (st : List Entitlement × Nat) (pid pid' : String)
    (h : grantFixed p ex pid st.1) :
    grantFixed p ex pid (grantOne p ex now st pid').1 := by
  obtain ⟨r, hfind, hfix⟩ := h
  cases hf : st.1.find? (entMatchesKey p.identityId pid' p.source p.sourceApp) with
  | some e =>
    rw [grantOne_found p ex now st pid' e hf]
    refine ⟨if r.id = e.id then grantUpdate p ex r else r, ?_, ?_⟩
    · rw [find?_map_of_pred_inv _ _ st.1 (fun x _ => grantOne_pred_inv p ex e _ _ _ _ x), hfind]
      rfl
    · by_cases hid : r.id = e.id
      · rw [if_pos hid]
        exact grantUpdate_idem p ex r
      · rw [if_neg hid]
        exact hfix
  | none =>
    rw [grantOne_notFound p ex now st pid' hf]
    refine ⟨r, ?_, hfix⟩
    rw [List.find?_append, hfind]
    rfl

theorem grantOne_eq_of_fixed (p : GrantParams) (ex : Option Civil) (now : Civil)
    (st : List Entitlement × Nat) (pid : String)
    (hwf : EntsWF st.1 st.2) (h : grantFixed p ex pid st.1) :
    grantOne p ex now st pid = st := by
  obtain ⟨r, hfind, hfix⟩ := h
  have hrmem : r ∈ st.1 := List.mem_of_find?_eq_some hfind
  rw [grantOne_found p ex now st pid r hfind]
  have hmap : (st.1.map fun x => if x.id = r.id then grantUpdate p ex x else x) = st.1 := by
    apply map_id_of_fix
    intro x hx hid
    have hxr : x = r := nodup_map_inj hwf.2 hx hrmem hid
    rw [hxr, hfix]
  rw [hmap]

theorem grantOne_wf (p : GrantParams) (ex : Option Civil) (now : Civil)
    (st : List Entitlement × Nat) (pid : String)
    (hwf : EntsWF st.1 st.2) :
    EntsWF (grantOne p ex now st pid).1 (grantOne p ex now st pid).2 := by
  cases hf : st.1.find? (entMatchesKey p.identityId pid p.source p.sourceApp) with
  | some e =>
    rw [grantOne_found p ex now st pid e hf]
    constructor
    · intro x hx
      obtain ⟨y, hy, hxy⟩ := List.mem_map.mp hx
      have hid : x.id = y.id := by
        subst hxy
        by_cases hid : y.id = e.id
        · rw [if_pos hid]; rfl
        · rw [if_neg hid]
      rw [hid]
      exact hwf.1 y hy
    · have hids : ((st.1.map fun x => if x.id = e.id then grantUpdate p ex x else x).map
          (fun e => e.id)) = st.1.map (fun e => e.id) := by
        rw [List.map_map]
        apply List.map_congr_left
        intro x _
        simp only [Function.comp_apply]
        by_cases hid : x.id = e.id
        · rw [if_pos hid]; rfl
        · rw [if_neg hid]
      rw [hids]
      exact hwf.2
  | none =>
    rw [grantOne_notFound p ex now st pid hf]
    constructor
    · intro x hx
      cases List.mem_append.mp hx with
      | inl h => exact Nat.lt_succ_of_lt (hwf.1 x h)
      | inr h =>
        rw [List.mem_singleton.mp h]
        exact Nat.lt_succ_self st.2
    · rw [List.map_append]
      simp only [List.map_cons, List.map_nil]
      rw [List.nodup_append]
      refine ⟨hwf.2, List.nodup_singleton _, ?_⟩
      intro a ha hb
      rw [List.mem_singleton.mp hb] at ha
      obtain ⟨y, hy, hxy⟩ := List.mem_map.mp ha
      exact absurd hxy (Nat.ne_of_lt (hwf.1 y hy))

theorem grantOne_keyUnique (p : GrantParams) (ex : Option Civil) (now : Civil)
    (st : List Entitlement × Nat) (pid : String)
    (hku : KeyUnique st.1) :
    KeyUnique (grantOne p ex now st pid).1 := by
  cases hf : st.1.find? (entMatchesKey p.identityId pid p.source p.sourceApp) with
  | some e =>
    rw [grantOne_found p ex now st pid e hf]
    unfold KeyUnique
    have hkeys : ((st.1.map fun x => if x.id = e.id then grantUpdate p ex x else x).map entKey) =
        st.1.map entKey := by
      rw [List.map_map]
      apply List.map_congr_left
      intro x _
      simp only [Function.comp_apply]
      by_cases hid : x.id = e.id
      · rw [if_pos hid, entKey_grantUpdate]
      · rw [if_neg hid]
    rw [hkeys]
    exact hku
  | none =>
    rw [grantOne_notFound p ex now st pid hf]
    unfold KeyUnique
    rw [List.map_append]
    simp only [List.map_cons, List.map_nil]
    rw [List.nodup_append]
    refine ⟨hku, List.nodup_singleton _, ?_⟩
    intro a ha hb
    rw [List.mem_singleton.mp hb] at ha
    obtain ⟨y, hy, hxy⟩ := List.mem_map.mp ha
    have hy' : entMatchesKey p.identityId pid p.source p.sourceApp y = true := by
      rw [entMatchesKey_iff, hxy]
      rfl
    exact absurd hy' (List.find?_eq_none.mp hf y hy)

/-! ## Lemmas about the whole `grantAccess` fold -/

theorem grantFixed_fold (p : GrantParams) (ex : Option Civil) (now : Civil) :
    ∀ (pids : List String) (st : List Entitlement × Nat) (pid : String),
      grantFixed p ex pid st.1 →
      grantFixed p ex pid (pids.foldl (grantOne p ex now) st).1 := by
  intro pids
  induction pids with
  | nil => intro st pid h; exact h
  | cons q qs ih =>
    intro st pid h
    exact ih (grantOne p ex now st q) pid (grantFixed_step p ex now st pid q h)

theorem grantEnts_wf_fold (p : GrantParams) (ex : Option Civil) (now : Civil) :
    ∀ (pids : List String) (st : List Entitlement × Nat),
      EntsWF st.1 st.2 →
      EntsWF (pids.foldl (grantOne p ex now) st).1 (pids.foldl (grantOne p ex now) st).2 := by
  intro pids
  induction pids with
  | nil => intro st h; exact h
  | cons q qs ih =>
    intro st h
    exact ih (grantOne p ex now st q) (grantOne_wf p ex now st q h)

theorem grantEnts_keyUnique_fold (p : GrantParams) (ex : Option Civil) (now : Civil) :
    ∀ (pids : List String) (st : List Entitlement × Nat),
      KeyUnique st.1 →
      KeyUnique (pids.foldl (grantOne p ex now) st).1 := by
  intro pids
  induction pids with
  | nil => intro st h; exact h
  | cons q qs ih =>
    intro st h
    exact ih (grantOne p ex now st q) (grantOne_keyUnique p ex now st q h)

theorem grantEnts_all_fixed (p : GrantParams) (ex : Option Civil) (now : Civil) :
    ∀ (pids : List String) (st : List Entitlement × Nat) (pid : String), pid ∈ pids →
      grantFixed p ex pid (pids.foldl (grantOne p ex now) st).1 := by
  intro pids
  induction pids with
  | nil => intro st pid h; cases h
  | cons q qs ih =>
    intro st pid h
    cases List.mem_cons.mp h with
    | inl hq =>
      subst hq
      exact grantFixed_fold p ex now qs (grantOne p ex now st pid) pid
        (grantOne_fixed p ex now st pid)
    | inr hqs => exact ih (grantOne p ex now st q) pid hqs

theorem grantEnts_eq_of_all_fixed (p : GrantParams) (ex : Option Civil) (now : Civil) :
    ∀ (pids : List String) (st : List Entitlement × Nat),
      EntsWF st.1 st.2 → (∀ pid ∈ pids, grantFixed p ex pid st.1) →
      pids.foldl (grantOne p ex now) st = st := by
  intro pids
  induction pids with
  | nil => intro st _ _; rfl
  | cons q qs ih =>
    intro st hwf hall
    have hq : grantOne p ex now st q = st :=
      grantOne_eq_of_fixed p ex now st q hwf (hall q (List.mem_cons_self q qs))
    rw [List.foldl_cons, hq]
    exact ih st hwf (fun pid hp => hall pid (List.mem_cons_of_mem q hp))

/-- Re-running the ledger writes of one `grantAccess` call on its own
result changes nothing: the second delivery's update writes back the
values the first one wrote. -/
theorem grantEnts_idem (p : GrantParams) (ex : Option Civil) (now : Civil)
    (st : List Entitlement × Nat) (hwf : EntsWF st.1 st.2) :
    grantEnts p ex now (grantEnts p ex now st) = grantEnts p ex now st := by
  unfold grantEnts
  exact grantEnts_eq_of_all_fixed p ex now p.productIds _
    (grantEnts_wf_fold p ex now p.productIds st hwf)
    (fun pid hp => grantEnts_all_fixed p ex now p.productIds st pid hp)

/-- After one `grantAccess`, every granted product has an active row with
the grant's key, expiry and cleared revocation. -/
theorem grantEnts_row_exists (p : GrantParams) (ex : Option Civil) (now : Civil)
    (st : List Entitlement × Nat) (pid : String) (hp : pid ∈ p.productIds) :
    ∃ r ∈ (grantEnts p ex now st).1,
      entKey r = (p.identityId, pid, p.source, p.sourceApp) ∧
      r.expiresAt = ex ∧ r.revokedAt = none ∧ r.revokedReason = none := by
  obtain ⟨r, hfind, hfix⟩ := grantEnts_all_fixed p ex now p.productIds st pid hp
  refine ⟨r, List.mem_of_find?_eq_some hfind, ?_, ?_, ?_, ?_⟩
  · exact (entMatchesKey_iff _ _ _ _ r).mp (List.find?_some hfind)
  · rw [← hfix]; rfl
  · rw [← hfix]; rfl
  · rw [← hfix]; rfl

/-! ## Lemmas about `getOrCreateIdentity` -/

theorem gocCore_notFound (email : EmailStr) (cid : Option String)
    (st : List Identity × Nat)
    (hf : st.1.find? (fun i => decide (i.primaryEmail = toLowerStr email)) = none) :
    gocCore email cid st =
      (⟨st.2, toLowerStr email, cid⟩, (st.1 ++ [⟨st.2, toLowerStr email, cid⟩], st.2 + 1)) := by
  unfold gocCore
  rw [hf]

theorem gocCore_found (email : EmailStr) (cid : Option String)
    (st : List Identity × Nat) (f : Identity)
    (hf : st.1.find? (fun i => decide (i.primaryEmail = toLowerStr email)) = some f) :
    gocCore email cid st =
      match cid, f.stripeCustomerId with
      | some c, none =>
        ({ f with stripeCustomerId := some c },
          (st.1.map (fun i => if i.id = f.id then { f with stripeCustomerId := some c } else i),
            st.2))
      | _, _ => (f, st) := by
  unfold gocCore
  rw [hf]

/-- The identity returned by `getOrCreateIdentity` never lacks the Stripe
customer id it was offered. -/
theorem gocCore_customer (email : EmailStr) (c : String)
    (st : List Identity × Nat) :
    (gocCore email (some c) st).1.stripeCustomerId ≠ none := by
  cases hf : st.1.find? (fun i => decide (i.primaryEmail = toLowerStr email)) with
  | none =>
    rw [gocCore_notFound email (some c) st hf]
    simp
  | some f =>
    rw [gocCore_found email (some c) st f hf]
    cases hc : f.stripeCustomerId with
    | none => simp
    | some c' => simp [hc]

theorem gocCore_email (email : EmailStr) (cid : Option String)
    (st : List Identity × Nat) :
    (gocCore email cid st).1.primaryEmail = toLowerStr email := by
  cases hf : st.1.find? (fun i => decide (i.primaryEmail = toLowerStr email)) with
  | none =>
    rw [gocCore_notFound email cid st hf]
  | some f =>
    have hfP := List.find?_some hf
    simp only [decide_eq_true_eq] at hfP
    rw [gocCore_found email cid st f hf]
    cases cid with
    | none => simpa using hfP
    | some c =>
      cases hc : f.stripeCustomerId with
      | none => simpa using hfP
      | some c' => simpa [hc] using hfP

/-- Re-running `getOrCreateIdentity` on its own output state performs no
write and returns the same identity. -/
theorem gocCore_stable (email : EmailStr) (cid : Option String)
    (st : List Identity × Nat) (hwf : IdsWF st.1 st.2) :
    gocCore email cid (gocCore email cid st).2 =
      ((gocCore email cid st).1, (gocCore email cid st).2) := by
  cases hf : st.1.find? (fun i => decide (i.primaryEmail = toLowerStr email)) with
  | none =>
    have h1 : gocCore email cid st =
        (⟨st.2, toLowerStr email, cid⟩, (st.1 ++ [⟨st.2, toLowerStr email, cid⟩], st.2 + 1)) :=
      gocCore_notFound email cid st hf
    have hfind2 : (st.1 ++ [(⟨st.2, toLowerStr email, cid⟩ : Identity)]).find?
        (fun i => decide (i.primaryEmail = toLowerStr email)) =
        some ⟨st.2, toLowerStr email, cid⟩ := by
      rw [List.find?_append, hf, Option.none_or, List.find?_cons_of_pos _ (by simp)]
    have h2 : gocCore email cid (st.1 ++ [(⟨st.2, toLowerStr email, cid⟩ : Identity)], st.2 + 1) =
        (⟨st.2, toLowerStr email, cid⟩,
          (st.1 ++ [(⟨st.2, toLowerStr email, cid⟩ : Identity)], st.2 + 1)) := by
      rw [gocCore_found email cid _ _ hfind2]
      cases cid with
      | none => rfl
      | some c => rfl
    simp [h1, h2]
  | some f =>
    have hfmem : f ∈ st.1 := List.mem_of_find?_eq_some hf
    cases cid with
    | none =>
      have h1 : gocCore email none st = (f, st) := by
        rw [gocCore_found email none st f hf]
      simp [h1]
    | some c =>
      cases hc : f.stripeCustomerId with
      | some c' =>
        have h1 : gocCore email (some c) st = (f, st) := by
          rw [gocCore_found email (some c) st f hf, hc]
        simp [h1]
      | none =>
        have h1 : gocCore email (some c) st =
            ({ f with stripeCustomerId := some c },
              (st.1.map (fun i =>
                if i.id = f.id then { f with stripeCustomerId := some c } else i), st.2)) := by
          rw [gocCore_found email (some c) st f hf, hc]
        have hfind2 : (st.1.map (fun i =>
            if i.id = f.id then { f with stripeCustomerId := some c } else i)).find?
            (fun i => decide (i.primaryEmail = toLowerStr email)) =
            some { f with stripeCustomerId := some c } := by
          have hinv : ∀ x ∈ st.1,
              (fun i => decide (i.primaryEmail = toLowerStr email))
                (if x.id = f.id then { f with stripeCustomerId := some c } else x) =
              (fun i => decide (i.primaryEmail = toLowerStr email)) x := by
            intro x hx
            by_cases hid : x.id = f.id
            · have hxf : x = f := nodup_map_inj hwf.2 hx hfmem hid
              rw [if_pos hid, hxf]
            · rw [if_neg hid]
          rw [find?_map_of_pred_inv _ _ st.1 hinv, hf]
          simp
        have h2 : gocCore email (some c)
            (st.1.map (fun i =>
              if i.id = f.id then { f with stripeCustomerId := some c } else i), st.2) =
            ({ f with stripeCustomerId := some c },
              (st.1.map (fun i =>
                if i.id = f.id then { f with stripeCustomerId := some c } else i), st.2)) := by
          rw [gocCore_found email (some c) _ _ hfind2]
        simp [h1, h2]

theorem getOrCreateIdentity_def (email : EmailStr) (cid : Option String) (db : DB) :
    getOrCreateIdentity email cid db =
      ((gocCore email cid (db.identities, db.nextIdentityId)).1,
        { db with identities := (gocCore email cid (db.identities, db.nextIdentityId)).2.1,
                  nextIdentityId := (gocCore email cid (db.identities, db.nextIdentityId)).2.2 }) := by
  unfold getOrCreateIdentity
  rfl

/-! ## Lemmas about the keep-upsert of identity emails -/

theorem upsertKeep_shape (i : Nat) (email : EmailStr) (pid : String) (db : DB) :
    ∃ bs, upsertIdentityEmailKeep i email pid db = { db with identityEmails := bs } := by
  unfold upsertIdentityEmailKeep
  cases db.identityEmails.find?
      (fun b => decide (b.email = toLowerStr email ∧ b.productId = pid)) with
  | some b => exact ⟨db.identityEmails, rfl⟩
  | none => exact ⟨_, rfl⟩

theorem upsertKeep_exists (i : Nat) (email : EmailStr) (pid : String) (db : DB) :
    ∃ b ∈ (upsertIdentityEmailKeep i email pid db).identityEmails,
      b.email = toLowerStr email ∧ b.productId = pid := by
  unfold upsertIdentityEmailKeep
  cases hf : db.identityEmails.find?
      (fun b => decide (b.email = toLowerStr email ∧ b.productId = pid)) with
  | some b =>
    refine ⟨b, List.mem_of_find?_eq_some hf, ?_⟩
    have := List.find?_some hf
    simpa using this
  | none =>
    exact ⟨⟨i, toLowerStr email, pid⟩, List.mem_append_right _ (List.mem_singleton_self _),
      rfl, rfl⟩

theorem upsertKeep_mono (i : Nat) (email : EmailStr) (pid : String) (db : DB)
    (b : IdentityEmail) (hb : b ∈ db.identityEmails) :
    b ∈ (upsertIdentityEmailKeep i email pid db).identityEmails := by
  unfold upsertIdentityEmailKeep
  cases db.identityEmails.find?
      (fun x => decide (x.email = toLowerStr email ∧ x.productId = pid)) with
  | some _ => exact hb
  | none => exact List.mem_append_left _ hb

theorem upsertKeep_noop (i : Nat) (email : EmailStr) (pid : String) (db : DB)
    (h : ∃ b ∈ db.identityEmails, b.email = toLowerStr email ∧ b.productId = pid) :
    upsertIdentityEmailKeep i email pid db = db := by
  obtain ⟨b, hbmem, hb1, hb2⟩ := h
  unfold upsertIdentityEmailKeep
  cases hf : db.identityEmails.find?
      (fun x => decide (x.email = toLowerStr email ∧ x.productId = pid)) with
  | some _ => rfl
  | none =>
    exact absurd (by simp [hb1, hb2]) (List.find?_eq_none.mp hf b hbmem)

/-! ## Lemmas about the webhook log -/

/-- Number of webhook-log rows carrying a given event id. -/
def countLog (db : DB) (eid : String) : Nat :=
  (db.webhookLog.filter (fun w => decide (w.eventId = eid))).length

theorem logWebhookEvent_shape (eid et pl s : String) (em : Option String) (db : DB) :
    ∃ wl, logWebhookEvent eid et pl s em db = { db with webhookLog := wl } := by
  unfold logWebhookEvent
  cases db.webhookLog.find? (fun w => decide (w.eventId = eid)) with
  | some _ => exact ⟨_, rfl⟩
  | none => exact ⟨_, rfl⟩

theorem countLog_zero_iff (db : DB) (eid : String) :
    countLog db eid = 0 ↔
      db.webhookLog.find? (fun w => decide (w.eventId = eid)) = none := by
  rw [countLog, List.length_eq_zero, List.filter_eq_nil_iff, List.find?_eq_none]

theorem logWebhookEvent_count_of_zero (eid et pl s : String) (em : Option String) (db : DB)
    (h : countLog db eid = 0) :
    countLog (logWebhookEvent eid et pl s em db) eid = 1 := by
  have hf := (countLog_zero_iff db eid).mp h
  unfold logWebhookEvent
  rw [hf]
  unfold countLog at h ⊢
  simp only [List.filter_append]
  rw [List.length_append, h]
  simp

theorem length_filter_map_pred_inv {α : Type} (g : α → α) (P : α → Bool) :
    ∀ l : List α, (∀ x ∈ l, P (g x) = P x) →
      ((l.map g).filter P).length = (l.filter P).length := by
  intro l
  induction l with
  | nil => intro _; rfl
  | cons a t ih =>
    intro h
    have ha := h a (List.mem_cons_self a t)
    have iht := ih (fun x hx => h x (List.mem_cons_of_mem a hx))
    rw [List.map_cons]
    by_cases hp : P a = true
    · rw [List.filter_cons_of_pos (ha.trans hp), List.filter_cons_of_pos hp]
      simp [iht]
    · have hp' : P a = false := by
        cases hP : P a
        · rfl
        · exact absurd hP hp
      rw [List.filter_cons_of_neg (by rw [ha, hp']; simp),
        List.filter_cons_of_neg (by rw [hp']; simp)]
      exact iht

theorem logWebhookEvent_count_of_pos (eid et pl s : String) (em : Option String) (db : DB)
    (h : countLog db eid ≠ 0) :
    countLog (logWebhookEvent eid et pl s em db) eid = countLog db eid := by
  cases hf : db.webhookLog.find? (fun w => decide (w.eventId = eid)) with
  | none => exact absurd ((countLog_zero_iff db eid).mpr hf) h
  | some w =>
    unfold logWebhookEvent
    rw [hf]
    unfold countLog
    simp only
    apply length_filter_map_pred_inv
    intro x _
    by_cases hx : x.eventId = eid
    · simp [hx]
    · simp [hx]

/-! ## Shape lemmas for the checkout-completed paths -/

theorem getOrCreateIdentity_products (em : EmailStr) (cid : Option String) (db : DB) :
    ((getOrCreateIdentity em cid db).2).products = db.products := by
  rw [getOrCreateIdentity_def]

theorem grantAccess_def (p : GrantParams) (now : Civil) (db : DB) :
    grantAccess p now db =
      { db with
        entitlements := (grantEnts p (calculateExpiryDate p.durationType p.durationValue now) now
          (db.entitlements, db.nextEntitlementId)).1,
        nextEntitlementId := (grantEnts p (calculateExpiryDate p.durationType p.durationValue now)
          now (db.entitlements, db.nextEntitlementId)).2,
        auditLog := db.auditLog ++ [⟨"grant", p.identityId, p.productIds, none⟩] } := rfl

theorem upsertKeepFold_shape (i : Nat) (em : EmailStr) :
    ∀ (pids : List String) (db : DB),
      ∃ bs, pids.foldl (fun d pid => upsertIdentityEmailKeep i em pid d) db =
        { db with identityEmails := bs } := by
  intro pids
  induction pids with
  | nil => intro db; exact ⟨db.identityEmails, rfl⟩
  | cons q qs ih =>
    intro db
    obtain ⟨bs1, h1⟩ := upsertKeep_shape i em q db
    obtain ⟨bs2, h2⟩ := ih (upsertIdentityEmailKeep i em q db)
    rw [List.foldl_cons, h2, h1]
    exact ⟨bs2, rfl⟩

theorem upsertKeepFold_mono (i : Nat) (em : EmailStr) :
    ∀ (pids : List String) (db : DB) (b : IdentityEmail), b ∈ db.identityEmails →
      b ∈ (pids.foldl (fun d pid => upsertIdentityEmailKeep i em pid d) db).identityEmails := by
  intro pids
  induction pids with
  | nil => intro db b hb; exact hb
  | cons q qs ih =>
    intro db b hb
    exact ih (upsertIdentityEmailKeep i em q db) b (upsertKeep_mono i em q db b hb)

theorem upsertKeepFold_exists (i : Nat) (em : EmailStr) :
    ∀ (pids : List String) (db : DB) (pid : String), pid ∈ pids →
      ∃ b ∈ (pids.foldl (fun d pid => upsertIdentityEmailKeep i em pid d) db).identityEmails,
        b.email = toLowerStr em ∧ b.productId = pid := by
  intro pids
  induction pids with
  | nil => intro db pid h; cases h
  | cons q qs ih =>
    intro db pid h
    cases List.mem_cons.mp h with
    | inl hq =>
      subst hq
      obtain ⟨b, hbmem, hb⟩ := upsertKeep_exists i em pid db
      exact ⟨b, upsertKeepFold_mono i em qs _ b hbmem, hb⟩
    | inr hqs => exact ih (upsertIdentityEmailKeep i em q db) pid hqs

theorem upsertKeepFold_noop (i : Nat) (em : EmailStr) :
    ∀ (pids : List String) (db : DB),
      (∀ pid ∈ pids, ∃ b ∈ db.identityEmails, b.email = toLowerStr em ∧ b.productId = pid) →
      pids.foldl (fun d pid => upsertIdentityEmailKeep i em pid d) db = db := by
  intro pids
  induction pids with
  | nil => intro db _; rfl
  | cons q qs ih =>
    intro db h
    have hq : upsertIdentityEmailKeep i em q db = db :=
      upsertKeep_noop i em q db (h q (List.mem_cons_self q qs))
    rw [List.foldl_cons, hq]
    exact ih db (fun pid hp => h pid (List.mem_cons_of_mem q hp))

theorem createClaimToken_shape (i bid : Nat) (em : EmailStr) (sid : Option String)
    (now : Civil) (db : DB) :
    ∃ cts n, (createClaimToken i bid em sid now db).2 =
      { db with claimTokens := cts, nextTokenId := n } := by
  unfold createClaimToken
  exact ⟨_, _, rfl⟩

/-- The grant parameters `handleCheckoutCompleted` (and `processClaim`)
hand to `grantAccess` for a bundle. -/
def bundleGrantParams (identityId : Nat) (bundle : Bundle) : GrantParams :=
  { identityId := identityId, productIds := bundle.productIds,
    source := "bundle", sourceApp := "central", bundleId := some bundle.id,
    durationType := bundle.durationType, durationValue := bundle.durationValue,
    stripeSubscriptionId := none, stripePriceId := none,
    amountPaid := none, currency := none }

theorem handleCheckout_noEmail (s : CheckoutSession) (now : Civil) (db : DB)
    (he : s.customerEmail = none) :
    handleCheckoutCompleted s now db = .error "No customer email in session" := by
  unfold handleCheckoutCompleted
  rw [he]

theorem handleCheckout_noPrice (s : CheckoutSession) (now : Civil) (db : DB)
    (em : EmailStr) (he : s.customerEmail = some em) (hp : s.lineItemPriceId = none) :
    handleCheckoutCompleted s now db = .error "No line items in session" := by
  unfold handleCheckoutCompleted
  rw [he, hp]

theorem handleCheckout_noBundle (s : CheckoutSession) (now : Civil) (db : DB)
    (em : EmailStr) (pr : String) (he : s.customerEmail = some em)
    (hp : s.lineItemPriceId = some pr)
    (hb : db.bundles.find? (fun b => decide (b.stripePriceId = pr)) = none) :
    handleCheckoutCompleted s now db = .ok (⟨false, .notBundle⟩, db) := by
  unfold handleCheckoutCompleted
  simp only [he, hp, hb]

/-- The state the form-free branch of `handleCheckoutCompleted` leaves. -/
def checkoutGrantedState (s : CheckoutSession) (now : Civil) (db : DB)
    (em : EmailStr) (bundle : Bundle) : DB :=
  let identity := (getOrCreateIdentity em s.customerId db).1
  let db1 := (getOrCreateIdentity em s.customerId db).2
  let db2 := bundle.productIds.foldl
    (fun d productId => upsertIdentityEmailKeep identity.id em productId d) db1
  let db3 := grantAccess (bundleGrantParams identity.id bundle) now db2
  { db3 with emailsSent := db3.emailsSent + 1 }

theorem handleCheckout_formFree (s : CheckoutSession) (now : Civil) (db : DB)
    (em : EmailStr) (pr : String) (bundle : Bundle)
    (he : s.customerEmail = some em) (hp : s.lineItemPriceId = some pr)
    (hb : db.bundles.find? (fun b => decide (b.stripePriceId = pr)) = some bundle)
    (hforms : db.products.filter
      (fun p => decide (p.id ∈ bundle.productIds) && p.hasFormSchema) = []) :
    handleCheckoutCompleted s now db =
      .ok (⟨true, .accessGranted⟩, checkoutGrantedState s now db em bundle) := by
  unfold checkoutGrantedState
  unfold handleCheckoutCompleted
  simp only [he, hp, hb]
  rw [show getOrCreateIdentity em s.customerId db =
      ((getOrCreateIdentity em s.customerId db).1, (getOrCreateIdentity em s.customerId db).2)
      from rfl]
  simp only [getOrCreateIdentity_products, hforms, bundleGrantParams, if_pos]

theorem handleCheckout_formToken (s : CheckoutSession) (now : Civil) (db : DB)
    (em : EmailStr) (pr : String) (bundle : Bundle)
    (he : s.customerEmail = some em) (hp : s.lineItemPriceId = some pr)
    (hb : db.bundles.find? (fun b => decide (b.stripePriceId = pr)) = some bundle)
    (hforms : db.products.filter
      (fun p => decide (p.id ∈ bundle.productIds) && p.hasFormSchema) ≠ []) :
    handleCheckoutCompleted s now db = .ok
      (⟨true, .claimTokenCreated
        (createClaimToken (getOrCreateIdentity em s.customerId db).1.id bundle.id em
          (some s.sessionId) now (getOrCreateIdentity em s.customerId db).2).1.token⟩,
        (createClaimToken (getOrCreateIdentity em s.customerId db).1.id bundle.id em
          (some s.sessionId) now (getOrCreateIdentity em s.customerId db).2).2) := by
  unfold handleCheckoutCompleted
  simp only [he, hp, hb]
  rw [show getOrCreateIdentity em s.customerId db =
      ((getOrCreateIdentity em s.customerId db).1, (getOrCreateIdentity em s.customerId db).2)
      from rfl]
  simp only [getOrCreateIdentity_products]
  rw [if_neg hforms,
    show createClaimToken (getOrCreateIdentity em s.customerId db).1.id bundle.id em
        (some s.sessionId) now (getOrCreateIdentity em s.customerId db).2 =
      ((createClaimToken (getOrCreateIdentity em s.customerId db).1.id bundle.id em
        (some s.sessionId) now (getOrCreateIdentity em s.customerId db).2).1,
       (createClaimToken (getOrCreateIdentity em s.customerId db).1.id bundle.id em
        (some s.sessionId) now (getOrCreateIdentity em s.customerId db).2).2) from rfl]

/-! ## Unfolding lemmas for the webhook route -/

theorem getOrCreateIdentity_fst (em : EmailStr) (cid : Option String) (db : DB) :
    (getOrCreateIdentity em cid db).1 =
      (gocCore em cid (db.identities, db.nextIdentityId)).1 := by
  rw [getOrCreateIdentity_def]

theorem getOrCreateIdentity_snd (em : EmailStr) (cid : Option String) (db : DB) :
    (getOrCreateIdentity em cid db).2 =
      { db with identities := (gocCore em cid (db.identities, db.nextIdentityId)).2.1,
                nextIdentityId := (gocCore em cid (db.identities, db.nextIdentityId)).2.2 } := by
  rw [getOrCreateIdentity_def]

theorem processWebhook_other (e : StripeEvent) (now : Civil) (db : DB)
    (hd : e.data = .other) :
    processStripeWebhookEvent e now db =
      logWebhookEvent e.eventId e.eventType e.payload "ignored" none db := by
  unfold processStripeWebhookEvent
  rw [hd]

theorem processWebhook_checkout_ok (e : StripeEvent) (s : CheckoutSession) (now : Civil)
    (db : DB) (r : CheckoutResult) (db' : DB) (hd : e.data = .checkout s)
    (hh : handleCheckoutCompleted s now db = .ok (r, db')) :
    processStripeWebhookEvent e now db =
      logWebhookEvent e.eventId e.eventType e.payload
        (if r.handled then "success" else "ignored") none db' := by
  unfold processStripeWebhookEvent
  simp only [hd]
  rw [hh]

theorem processWebhook_checkout_handled (e : StripeEvent) (s : CheckoutSession)
    (now : Civil) (db : DB) (a : CheckoutAction) (db' : DB) (hd : e.data = .checkout s)
    (hh : handleCheckoutCompleted s now db = .ok (⟨true, a⟩, db')) :
    processStripeWebhookEvent e now db =
      logWebhookEvent e.eventId e.eventType e.payload "success" none db' := by
  rw [processWebhook_checkout_ok e s now db ⟨true, a⟩ db' hd hh]
  rfl

theorem processWebhook_checkout_ignored (e : StripeEvent) (s : CheckoutSession)
    (now : Civil) (db : DB) (a : CheckoutAction) (db' : DB) (hd : e.data = .checkout s)
    (hh : handleCheckoutCompleted s now db = .ok (⟨false, a⟩, db')) :
    processStripeWebhookEvent e now db =
      logWebhookEvent e.eventId e.eventType e.payload "ignored" none db' := by
  rw [processWebhook_checkout_ok e s now db ⟨false, a⟩ db' hd hh]
  rfl

theorem processWebhook_checkout_error (e : StripeEvent) (s : CheckoutSession) (now : Civil)
    (db : DB) (m : String) (hd : e.data = .checkout s)
    (hh : handleCheckoutCompleted s now db = .error m) :
    processStripeWebhookEvent e now db =
      logWebhookEvent e.eventId e.eventType e.payload "failed" (some m) db := by
  unfold processStripeWebhookEvent
  simp only [hd]
  rw [hh]

/-! ## Field descriptions of the two checkout output states -/

theorem checkoutGrantedState_fields (s : CheckoutSession) (now : Civil) (db : DB)
    (em : EmailStr) (bundle : Bundle) :
    ∃ B, checkoutGrantedState s now db em bundle =
      { db with
        identities := (gocCore em s.customerId (db.identities, db.nextIdentityId)).2.1,
        nextIdentityId := (gocCore em s.customerId (db.identities, db.nextIdentityId)).2.2,
        identityEmails := B,
        entitlements := (grantEnts
          (bundleGrantParams (gocCore em s.customerId (db.identities, db.nextIdentityId)).1.id
            bundle)
          (calculateExpiryDate bundle.durationType bundle.durationValue now) now
          (db.entitlements, db.nextEntitlementId)).1,
        nextEntitlementId := (grantEnts
          (bundleGrantParams (gocCore em s.customerId (db.identities, db.nextIdentityId)).1.id
            bundle)
          (calculateExpiryDate bundle.durationType bundle.durationValue now) now
          (db.entitlements, db.nextEntitlementId)).2,
        auditLog := db.auditLog ++
          [⟨"grant", (gocCore em s.customerId (db.identities, db.nextIdentityId)).1.id,
            bundle.productIds, none⟩],
        emailsSent := db.emailsSent + 1 } := by
  simp only [checkoutGrantedState]
  obtain ⟨B, hfold⟩ := upsertKeepFold_shape (getOrCreateIdentity em s.customerId db).1.id em
    bundle.productIds (getOrCreateIdentity em s.customerId db).2
  refine ⟨B, ?_⟩
  rw [hfold, grantAccess_def, getOrCreateIdentity_snd, getOrCreateIdentity_fst]
  rfl

theorem checkoutTokenState_fields (s : CheckoutSession) (now : Civil) (db : DB)
    (em : EmailStr) (bundle : Bundle) :
    ∃ C T, (createClaimToken (getOrCreateIdentity em s.customerId db).1.id bundle.id em
        (some s.sessionId) now (getOrCreateIdentity em s.customerId db).2).2 =
      { db with
        identities := (gocCore em s.customerId (db.identities, db.nextIdentityId)).2.1,
        nextIdentityId := (gocCore em s.customerId (db.identities, db.nextIdentityId)).2.2,
        claimTokens := C, nextTokenId := T } := by
  obtain ⟨C, T, h⟩ := createClaimToken_shape (getOrCreateIdentity em s.customerId db).1.id
    bundle.id em (some s.sessionId) now (getOrCreateIdentity em s.customerId db).2
  refine ⟨C, T, ?_⟩
  rw [h, getOrCreateIdentity_snd]

/-! ## C2 path lemmas: redelivery over the form-free grant path -/

theorem webhook_idem_granted (e : StripeEvent) (s : CheckoutSession) (now : Civil) (db : DB)
    (em : EmailStr) (pr : String) (bundle : Bundle)
    (hwf : WF db) (hlog : countLog db e.eventId = 0)
    (hdata : e.data = .checkout s) (he : s.customerEmail = some em)
    (hp : s.lineItemPriceId = some pr)
    (hb : db.bundles.find? (fun b => decide (b.stripePriceId = pr)) = some bundle)
    (hforms : db.products.filter
      (fun p => decide (p.id ∈ bundle.productIds) && p.hasFormSchema) = []) :
    (processStripeWebhookEvent e now (processStripeWebhookEvent e now db)).entitlements =
      (processStripeWebhookEvent e now db).entitlements ∧
    countLog (processStripeWebhookEvent e now (processStripeWebhookEvent e now db))
      e.eventId = 1 := by
  have hh1 := handleCheckout_formFree s now db em pr bundle he hp hb hforms
  rw [processWebhook_checkout_handled e s now db _ _ hdata hh1]
  obtain ⟨B, hG⟩ := checkoutGrantedState_fields s now db em bundle
  obtain ⟨wl1, hs1⟩ := logWebhookEvent_shape e.eventId e.eventType e.payload "success" none
    (checkoutGrantedState s now db em bundle)
  have hL1b : (logWebhookEvent e.eventId e.eventType e.payload "success" none
      (checkoutGrantedState s now db em bundle)).bundles = db.bundles := by
    rw [hs1, hG]
  have hL1p : (logWebhookEvent e.eventId e.eventType e.payload "success" none
      (checkoutGrantedState s now db em bundle)).products = db.products := by
    rw [hs1, hG]
  have hL1i : (logWebhookEvent e.eventId e.eventType e.payload "success" none
      (checkoutGrantedState s now db em bundle)).identities =
      (gocCore em s.customerId (db.identities, db.nextIdentityId)).2.1 := by
    rw [hs1, hG]
  have hL1ni : (logWebhookEvent e.eventId e.eventType e.payload "success" none
      (checkoutGrantedState s now db em bundle)).nextIdentityId =
      (gocCore em s.customerId (db.identities, db.nextIdentityId)).2.2 := by
    rw [hs1, hG]
  have hL1e : (logWebhookEvent e.eventId e.eventType e.payload "success" none
      (checkoutGrantedState s now db em bundle)).entitlements =
      (grantEnts
        (bundleGrantParams (gocCore em s.customerId (db.identities, db.nextIdentityId)).1.id
          bundle)
        (calculateExpiryDate bundle.durationType bundle.durationValue now) now
        (db.entitlements, db.nextEntitlementId)).1 := by
    rw [hs1, hG]
  have hL1ne : (logWebhookEvent e.eventId e.eventType e.payload "success" none
      (checkoutGrantedState s now db em bundle)).nextEntitlementId =
      (grantEnts
        (bundleGrantParams (gocCore em s.customerId (db.identities, db.nextIdentityId)).1.id
          bundle)
        (calculateExpiryDate bundle.durationType bundle.durationValue now) now
        (db.entitlements, db.nextEntitlementId)).2 := by
    rw [hs1, hG]
  have hb2 : (logWebhookEvent e.eventId e.eventType e.payload "success" none
      (checkoutGrantedState s now db em bundle)).bundles.find?
      (fun b => decide (b.stripePriceId = pr)) = some bundle := by
    rw [hL1b]
    exact hb
  have hforms2 : (logWebhookEvent e.eventId e.eventType e.payload "success" none
      (checkoutGrantedState s now db em bundle)).products.filter
      (fun p => decide (p.id ∈ bundle.productIds) && p.hasFormSchema) = [] := by
    rw [hL1p]
    exact hforms
  have hh2 := handleCheckout_formFree s now
    (logWebhookEvent e.eventId e.eventType e.payload "success" none
      (checkoutGrantedState s now db em bundle)) em pr bundle he hp hb2 hforms2
  rw [processWebhook_checkout_handled e s now _ _ _ hdata hh2]
  obtain ⟨B2, hG2⟩ := checkoutGrantedState_fields s now
    (logWebhookEvent e.eventId e.eventType e.payload "success" none
      (checkoutGrantedState s now db em bundle)) em bundle
  obtain ⟨wl2, hs2⟩ := logWebhookEvent_shape e.eventId e.eventType e.payload "success" none
    (checkoutGrantedState s now
      (logWebhookEvent e.eventId e.eventType e.payload "success" none
        (checkoutGrantedState s now db em bundle)) em bundle)
  have hstabfst : (gocCore em s.customerId
      ((logWebhookEvent e.eventId e.eventType e.payload "success" none
        (checkoutGrantedState s now db em bundle)).identities,
       (logWebhookEvent e.eventId e.eventType e.payload "success" none
        (checkoutGrantedState s now db em bundle)).nextIdentityId)).1 =
      (gocCore em s.customerId (db.identities, db.nextIdentityId)).1 := by
    have hpair : ((logWebhookEvent e.eventId e.eventType e.payload "success" none
        (checkoutGrantedState s now db em bundle)).identities,
       (logWebhookEvent e.eventId e.eventType e.payload "success" none
        (checkoutGrantedState s now db em bundle)).nextIdentityId) =
        (gocCore em s.customerId (db.identities, db.nextIdentityId)).2 := by
      rw [hL1i, hL1ni]
    rw [hpair, gocCore_stable em s.customerId (db.identities, db.nextIdentityId) hwf.2]
  have hentpair : ((logWebhookEvent e.eventId e.eventType e.payload "success" none
      (checkoutGrantedState s now db em bundle)).entitlements,
      (logWebhookEvent e.eventId e.eventType e.payload "success" none
        (checkoutGrantedState s now db em bundle)).nextEntitlementId) =
      grantEnts
        (bundleGrantParams (gocCore em s.customerId (db.identities, db.nextIdentityId)).1.id
          bundle)
        (calculateExpiryDate bundle.durationType bundle.durationValue now) now
        (db.entitlements, db.nextEntitlementId) := by
    rw [hL1e, hL1ne]
  have hidem := grantEnts_idem
    (bundleGrantParams (gocCore em s.customerId (db.identities, db.nextIdentityId)).1.id bundle)
    (calculateExpiryDate bundle.durationType bundle.durationValue now) now
    (db.entitlements, db.nextEntitlementId) hwf.1
  constructor
  · calc (logWebhookEvent e.eventId e.eventType e.payload "success" none
        (checkoutGrantedState s now
          (logWebhookEvent e.eventId e.eventType e.payload "success" none
            (checkoutGrantedState s now db em bundle)) em bundle)).entitlements
        = (checkoutGrantedState s now
            (logWebhookEvent e.eventId e.eventType e.payload "success" none
              (checkoutGrantedState s now db em bundle)) em bundle).entitlements := by
          rw [hs2]
      _ = (grantEnts
            (bundleGrantParams (gocCore em s.customerId
              ((logWebhookEvent e.eventId e.eventType e.payload "success" none
                (checkoutGrantedState s now db em bundle)).identities,
               (logWebhookEvent e.eventId e.eventType e.payload "success" none
                (checkoutGrantedState s now db em bundle)).nextIdentityId)).1.id bundle)
            (calculateExpiryDate bundle.durationType bundle.durationValue now) now
            ((logWebhookEvent e.eventId e.eventType e.payload "success" none
              (checkoutGrantedState s now db em bundle)).entitlements,
             (logWebhookEvent e.eventId e.eventType e.payload "success" none
              (checkoutGrantedState s now db em bundle)).nextEntitlementId)).1 := by
          rw [hG2]
      _ = (grantEnts
            (bundleGrantParams (gocCore em s.customerId
              (db.identities, db.nextIdentityId)).1.id bundle)
            (calculateExpiryDate bundle.durationType bundle.durationValue now) now
            (grantEnts
              (bundleGrantParams (gocCore em s.customerId
                (db.identities, db.nextIdentityId)).1.id bundle)
              (calculateExpiryDate bundle.durationType bundle.durationValue now) now
              (db.entitlements, db.nextEntitlementId))).1 := by
          rw [hstabfst, hentpair]
      _ = (grantEnts
            (bundleGrantParams (gocCore em s.customerId
              (db.identities, db.nextIdentityId)).1.id bundle)
            (calculateExpiryDate bundle.durationType bundle.durationValue now) now
            (db.entitlements, db.nextEntitlementId)).1 := by
          rw [hidem]
      _ = (logWebhookEvent e.eventId e.eventType e.payload "success" none
            (checkoutGrantedState s now db em bundle)).entitlements := hL1e.symm
  · have hGw : (checkoutGrantedState s now db em bundle).webhookLog = db.webhookLog := by
      rw [hG]
    have hG2w : (checkoutGrantedState s now
        (logWebhookEvent e.eventId e.eventType e.payload "success" none
          (checkoutGrantedState s now db em bundle)) em bundle).webhookLog =
        (logWebhookEvent e.eventId e.eventType e.payload "success" none
          (checkoutGrantedState s now db em bundle)).webhookLog := by
      rw [hG2]
    have hcg : countLog (checkoutGrantedState s now db em bundle) e.eventId = 0 := by
      unfold countLog
      rw [hGw]
      exact hlog
    have hcl1 : countLog (logWebhookEvent e.eventId e.eventType e.payload "success" none
        (checkoutGrantedState s now db em bundle)) e.eventId = 1 :=
      logWebhookEvent_count_of_zero _ _ _ _ _ _ hcg
    have hcg2 : countLog (checkoutGrantedState s now
        (logWebhookEvent e.eventId e.eventType e.payload "success" none
          (checkoutGrantedState s now db em bundle)) em bundle) e.eventId = 1 := by
      unfold countLog
      rw [hG2w]
      exact hcl1
    rw [logWebhookEvent_count_of_pos _ _ _ _ _ _ (by rw [hcg2]; exact one_ne_zero), hcg2]

/-! ## C2 path lemma: redelivery over the claim-token path -/

theorem webhook_idem_token (e : StripeEvent) (s : CheckoutSession) (now : Civil) (db : DB)
    (em : EmailStr) (pr : String) (bundle : Bundle)
    (_hwf : WF db) (hlog : countLog db e.eventId = 0)
    (hdata : e.data = .checkout s) (he : s.customerEmail = some em)
    (hp : s.lineItemPriceId = some pr)
    (hb : db.bundles.find? (fun b => decide (b.stripePriceId = pr)) = some bundle)
    (hforms : db.products.filter
      (fun p => decide (p.id ∈ bundle.productIds) && p.hasFormSchema) ≠ []) :
    (processStripeWebhookEvent e now (processStripeWebhookEvent e now db)).entitlements =
      (processStripeWebhookEvent e now db).entitlements ∧
    countLog (processStripeWebhookEvent e now (processStripeWebhookEvent e now db))
      e.eventId = 1 := by
  have hh1 := handleCheckout_formToken s now db em pr bundle he hp hb hforms
  rw [processWebhook_checkout_handled e s now db _ _ hdata hh1]
  obtain ⟨C, T, hT⟩ := checkoutTokenState_fields s now db em bundle
  obtain ⟨wl1, hs1⟩ := logWebhookEvent_shape e.eventId e.eventType e.payload "success" none
    (createClaimToken (getOrCreateIdentity em s.customerId db).1.id bundle.id em
      (some s.sessionId) now (getOrCreateIdentity em s.customerId db).2).2
  have hL1b : (logWebhookEvent e.eventId e.eventType e.payload "success" none
      (createClaimToken (getOrCreateIdentity em s.customerId db).1.id bundle.id em
        (some s.sessionId) now (getOrCreateIdentity em s.customerId db).2).2).bundles =
      db.bundles := by
    rw [hs1, hT]
  have hL1p : (logWebhookEvent e.eventId e.eventType e.payload "success" none
      (createClaimToken (getOrCreateIdentity em s.customerId db).1.id bundle.id em
        (some s.sessionId) now (getOrCreateIdentity em s.customerId db).2).2).products =
      db.products := by
    rw [hs1, hT]
  have hb2 : (logWebhookEvent e.eventId e.eventType e.payload "success" none
      (createClaimToken (getOrCreateIdentity em s.customerId db).1.id bundle.id em
        (some s.sessionId) now (getOrCreateIdentity em s.customerId db).2).2).bundles.find?
      (fun b => decide (b.stripePriceId = pr)) = some bundle := by
    rw [hL1b]
    exact hb
  have hforms2 : (logWebhookEvent e.eventId e.eventType e.payload "success" none
      (createClaimToken (getOrCreateIdentity em s.customerId db).1.id bundle.id em
        (some s.sessionId) now (getOrCreateIdentity em s.customerId db).2).2).products.filter
      (fun p => decide (p.id ∈ bundle.productIds) && p.hasFormSchema) ≠ [] := by
    rw [hL1p]
    exact hforms
  have hh2 := handleCheckout_formToken s now
    (logWebhookEvent e.eventId e.eventType e.payload "success" none
      (createClaimToken (getOrCreateIdentity em s.customerId db).1.id bundle.id em
        (some s.sessionId) now (getOrCreateIdentity em s.customerId db).2).2)
    em pr bundle he hp hb2 hforms2
  rw [processWebhook_checkout_handled e s now _ _ _ hdata hh2]
  obtain ⟨C2, T2, hT2⟩ := checkoutTokenState_fields s now
    (logWebhookEvent e.eventId e.eventType e.payload "success" none
      (createClaimToken (getOrCreateIdentity em s.customerId db).1.id bundle.id em
        (some s.sessionId) now (getOrCreateIdentity em s.customerId db).2).2) em bundle
  obtain ⟨wl2, hs2⟩ := logWebhookEvent_shape e.eventId e.eventType e.payload "success" none
    (createClaimToken (getOrCreateIdentity em s.customerId
        (logWebhookEvent e.eventId e.eventType e.payload "success" none
          (createClaimToken (getOrCreateIdentity em s.customerId db).1.id bundle.id em
            (some s.sessionId) now (getOrCreateIdentity em s.customerId db).2).2)).1.id
      bundle.id em (some s.sessionId) now
      (getOrCreateIdentity em s.customerId
        (logWebhookEvent e.eventId e.eventType e.payload "success" none
          (createClaimToken (getOrCreateIdentity em s.customerId db).1.id bundle.id em
            (some s.sessionId) now (getOrCreateIdentity em s.customerId db).2).2)).2).2
  constructor
  · rw [hs2, hT2]
  · have hTw : (createClaimToken (getOrCreateIdentity em s.customerId db).1.id bundle.id em
        (some s.sessionId) now (getOrCreateIdentity em s.customerId db).2).2.webhookLog =
        db.webhookLog := by
      rw [hT]
    have hT2w : (createClaimToken (getOrCreateIdentity em s.customerId
          (logWebhookEvent e.eventId e.eventType e.payload "success" none
            (createClaimToken (getOrCreateIdentity em s.customerId db).1.id bundle.id em
              (some s.sessionId) now (getOrCreateIdentity em s.customerId db).2).2)).1.id
        bundle.id em (some s.sessionId) now
        (getOrCreateIdentity em s.customerId
          (logWebhookEvent e.eventId e.eventType e.payload "success" none
            (createClaimToken (getOrCreateIdentity em s.customerId db).1.id bundle.id em
              (some s.sessionId) now (getOrCreateIdentity em s.customerId db).2).2)).2).2.webhookLog =
        (logWebhookEvent e.eventId e.eventType e.payload "success" none
          (createClaimToken (getOrCreateIdentity em s.customerId db).1.id bundle.id em
            (some s.sessionId) now (getOrCreateIdentity em s.customerId db).2).2).webhookLog := by
      rw [hT2]
    have hct : countLog (createClaimToken (getOrCreateIdentity em s.customerId db).1.id
        bundle.id em (some s.sessionId) now
        (getOrCreateIdentity em s.customerId db).2).2 e.eventId = 0 := by
      unfold countLog
      rw [hTw]
      exact hlog
    have hcl1 : countLog (logWebhookEvent e.eventId e.eventType e.payload "success" none
        (createClaimToken (getOrCreateIdentity em s.customerId db).1.id bundle.id em
          (some s.sessionId) now (getOrCreateIdentity em s.customerId db).2).2) e.eventId = 1 :=
      logWebhookEvent_count_of_zero _ _ _ _ _ _ hct
    have hct2 : countLog (createClaimToken (getOrCreateIdentity em s.customerId
          (logWebhookEvent e.eventId e.eventType e.payload "success" none
            (createClaimToken (getOrCreateIdentity em s.customerId db).1.id bundle.id em
              (some s.sessionId) now (getOrCreateIdentity em s.customerId db).2).2)).1.id
        bundle.id em (some s.sessionId) now
        (getOrCreateIdentity em s.customerId
          (logWebhookEvent e.eventId e.eventType e.payload "success" none
            (createClaimToken (getOrCreateIdentity em s.customerId db).1.id bundle.id em
              (some s.sessionId) now (getOrCreateIdentity em s.customerId db).2).2)).2).2
        e.eventId = 1 := by
      unfold countLog
      rw [hT2w]
      exact hcl1
    rw [logWebhookEvent_count_of_pos _ _ _ _ _ _ (by rw [hct2]; exact one_ne_zero), hct2]

/-! ## C2: webhook redelivery is idempotent on the ledger -/

/-- Both idempotence conclusions of C2 packaged over one redelivery. -/
theorem webhook_idem_aux (e : StripeEvent) (now : Civil) (db : DB)
    (hwf : WF db) (hlog : countLog db e.eventId = 0) :
    (processStripeWebhookEvent e now (processStripeWebhookEvent e now db)).entitlements =
      (processStripeWebhookEvent e now db).entitlements ∧
    countLog (processStripeWebhookEvent e now (processStripeWebhookEvent e now db))
      e.eventId = 1 := by
  have hcount : ∀ (db1 db2 : DB) (st1 : String) (em1 : Option String)
      (st2 : String) (em2 : Option String),
      db1.webhookLog = db.webhookLog → db2.webhookLog =
        (logWebhookEvent e.eventId e.eventType e.payload st1 em1 db1).webhookLog →
      countLog (logWebhookEvent e.eventId e.eventType e.payload st2 em2 db2) e.eventId = 1 := by
    intro db1 db2 st1 em1 st2 em2 h1 h2
    have hz : countLog db1 e.eventId = 0 := by
      unfold countLog
      rw [h1]
      exact hlog
    have h1c : countLog (logWebhookEvent e.eventId e.eventType e.payload st1 em1 db1)
        e.eventId = 1 :=
      logWebhookEvent_count_of_zero _ _ _ _ _ _ hz
    have h2c : countLog db2 e.eventId = 1 := by
      unfold countLog
      rw [h2]
      exact h1c
    rw [logWebhookEvent_count_of_pos _ _ _ _ _ _ (by rw [h2c]; exact one_ne_zero), h2c]
  cases hdata : e.data with
  | other =>
    rw [processWebhook_other e now db hdata]
    obtain ⟨wl1, hs1⟩ := logWebhookEvent_shape e.eventId e.eventType e.payload "ignored" none db
    rw [processWebhook_other e now _ hdata]
    obtain ⟨wl2, hs2⟩ := logWebhookEvent_shape e.eventId e.eventType e.payload "ignored" none
      (logWebhookEvent e.eventId e.eventType e.payload "ignored" none db)
    constructor
    · rw [hs2, hs1]
    · exact hcount db _ "ignored" none "ignored" none rfl rfl
  | checkout s =>
    cases he : s.customerEmail with
    | none =>
      have hh1 := handleCheckout_noEmail s now db he
      rw [processWebhook_checkout_error e s now db _ hdata hh1]
      obtain ⟨wl1, hs1⟩ := logWebhookEvent_shape e.eventId e.eventType e.payload "failed"
        (some "No customer email in session") db
      have hh2 := handleCheckout_noEmail s now
        (logWebhookEvent e.eventId e.eventType e.payload "failed"
          (some "No customer email in session") db) he
      rw [processWebhook_checkout_error e s now _ _ hdata hh2]
      obtain ⟨wl2, hs2⟩ := logWebhookEvent_shape e.eventId e.eventType e.payload "failed"
        (some "No customer email in session")
        (logWebhookEvent e.eventId e.eventType e.payload "failed"
          (some "No customer email in session") db)
      constructor
      · rw [hs2, hs1]
      · exact hcount db _ "failed" (some "No customer email in session")
          "failed" (some "No customer email in session") rfl rfl
    | some em =>
      cases hp : s.lineItemPriceId with
      | none =>
        have hh1 := handleCheckout_noPrice s now db em he hp
        rw [processWebhook_checkout_error e s now db _ hdata hh1]
        obtain ⟨wl1, hs1⟩ := logWebhookEvent_shape e.eventId e.eventType e.payload "failed"
          (some "No line items in session") db
        have hh2 := handleCheckout_noPrice s now
          (logWebhookEvent e.eventId e.eventType e.payload "failed"
            (some "No line items in session") db) em he hp
        rw [processWebhook_checkout_error e s now _ _ hdata hh2]
        obtain ⟨wl2, hs2⟩ := logWebhookEvent_shape e.eventId e.eventType e.payload "failed"
          (some "No line items in session")
          (logWebhookEvent e.eventId e.eventType e.payload "failed"
            (some "No line items in session") db)
        constructor
        · rw [hs2, hs1]
        · exact hcount db _ "failed" (some "No line items in session")
            "failed" (some "No line items in session") rfl rfl
      | some pr =>
        cases hb : db.bundles.find? (fun b => decide (b.stripePriceId = pr)) with
        | none =>
          have hh1 := handleCheckout_noBundle s now db em pr he hp hb
          rw [processWebhook_checkout_ignored e s now db _ db hdata hh1]
          obtain ⟨wl1, hs1⟩ := logWebhookEvent_shape e.eventId e.eventType e.payload "ignored"
            none db
          have hb2 : (logWebhookEvent e.eventId e.eventType e.payload "ignored"
              none db).bundles.find? (fun b => decide (b.stripePriceId = pr)) = none := by
            rw [hs1]
            exact hb
          have hh2 := handleCheckout_noBundle s now
            (logWebhookEvent e.eventId e.eventType e.payload "ignored" none db) em pr he hp hb2
          rw [processWebhook_checkout_ignored e s now _ _ _ hdata hh2]
          obtain ⟨wl2, hs2⟩ := logWebhookEvent_shape e.eventId e.eventType e.payload "ignored"
            none (logWebhookEvent e.eventId e.eventType e.payload "ignored" none db)
          constructor
          · rw [hs2]
          · exact hcount db _ "ignored" none "ignored" none rfl rfl
        | some bundle =>
          by_cases hforms : db.products.filter
              (fun p => decide (p.id ∈ bundle.productIds) && p.hasFormSchema) = []
          · exact webhook_idem_granted e s now db em pr bundle hwf hlog hdata he hp hb hforms
          · exact webhook_idem_token e s now db em pr bundle hwf hlog hdata he hp hb hforms

/-! ## Concrete fixtures used by the witnesses -/

/-- "buyer@x.co" as character codes. -/
def emW : EmailStr := [98, 117, 121, 101, 114, 64, 120, 46, 99, 111]

def bundleW : Bundle := ⟨1, "Pro Suite", "price_1", ["rezume", "aicoach"], .months, some 6⟩

def dbW : DB :=
  { identities := [], identityEmails := [], entitlements := [], bundles := [bundleW],
    products := [⟨"rezume", false⟩, ⟨"aicoach", false⟩], claimTokens := [],
    productSubmissions := [], auditLog := [], webhookLog := [], syncPushes := [],
    emailsSent := 0, nextEntitlementId := 1, nextIdentityId := 1, nextTokenId := 1 }

def nowW : Civil := ⟨2026, 0, 15⟩

def sessionW : CheckoutSession := ⟨"cs_1", some emW, some "cus_1", some "price_1"⟩

def eventW : StripeEvent := ⟨"evt_1", "checkout.session.completed", "{}", .checkout sessionW⟩

/-! ## C2 -/

/-- C2: delivering the same checkout-completed webhook event (same eventId)
twice is idempotent on persistent state: the second delivery leaves the
entitlement rows exactly equal to the state after the first (one
Entitlement effect, never two grants), and exactly one WebhookLog row is
keyed by that eventId. -/
theorem c2_webhook_redelivery_idempotent (e : StripeEvent) (s : CheckoutSession)
    (now : Civil) (db : DB) (hwf : WF db) (_hdata : e.data = .checkout s)
    (hlog : countLog db e.eventId = 0) :
    (processStripeWebhookEvent e now (processStripeWebhookEvent e now db)).entitlements =
      (processStripeWebhookEvent e now db).entitlements ∧
    countLog (processStripeWebhookEvent e now (processStripeWebhookEvent e now db))
      e.eventId = 1 :=
  webhook_idem_aux e now db hwf hlog

/-- Witness for C2 at a concrete bundle purchase. -/
theorem c2_webhook_redelivery_idempotent_witness :
    (WF dbW ∧ eventW.data = .checkout sessionW ∧ countLog dbW eventW.eventId = 0) ∧
    ((processStripeWebhookEvent eventW nowW
        (processStripeWebhookEvent eventW nowW dbW)).entitlements =
      (processStripeWebhookEvent eventW nowW dbW).entitlements ∧
     countLog (processStripeWebhookEvent eventW nowW
        (processStripeWebhookEvent eventW nowW dbW)) eventW.eventId = 1) :=
  ⟨⟨by decide, rfl, by decide⟩,
    c2_webhook_redelivery_idempotent eventW sessionW nowW dbW (by decide) rfl (by decide)⟩

def entC5 : Entitlement :=
  { id := 7, identityId := 1, productId := "rezume", source := "bundle",
    sourceApp := "central", bundleId := some 1, grantedAt := ⟨2025, 5, 1⟩,
    expiresAt := some ⟨2025, 11, 1⟩, revokedAt := some ⟨2025, 8, 1⟩,
    revokedReason := some "late refund", stripeSubscriptionId := none,
    stripePriceId := none, amountPaid := none, currency := none }

def dbC5 : DB :=
  { dbW with entitlements := [entC5], nextEntitlementId := 8,
             identities := [⟨1, emW, none⟩], nextIdentityId := 2 }

def pC5 : GrantParams :=
  { identityId := 1, productIds := ["rezume"], source := "bundle",
    sourceApp := "central", bundleId := some 1, durationType := .months,
    durationValue := some 6, stripeSubscriptionId := none, stripePriceId := none,
    amountPaid := none, currency := none }

/-! ## C5 -/

/-- C5: for every (identityId, productId, source, sourceApp) key at most one
Entitlement row exists at any time (`grantAccess` preserves the key
uniqueness invariant), and granting again for an existing key updates the
row in place — the new expiry wins and revokedAt/revokedReason are
cleared — instead of inserting a second row. -/
theorem c5_grant_key_unique_inplace (p : GrantParams) (now : Civil) (db : DB)
    (hku : KeyUnique db.entitlements) :
    KeyUnique (grantAccess p now db).entitlements ∧
    (∀ (pid : String) (e : Entitlement), p.productIds = [pid] → e ∈ db.entitlements →
      entMatchesKey p.identityId pid p.source p.sourceApp e = true →
      (grantAccess p now db).entitlements =
        db.entitlements.map (fun r =>
          if r.id = e.id then
            grantUpdate p (calculateExpiryDate p.durationType p.durationValue now) r
          else r) ∧
      (grantAccess p now db).entitlements.length = db.entitlements.length ∧
      (grantUpdate p (calculateExpiryDate p.durationType p.durationValue now) e).expiresAt =
        calculateExpiryDate p.durationType p.durationValue now ∧
      (grantUpdate p (calculateExpiryDate p.durationType p.durationValue now) e).revokedAt =
        none ∧
      (grantUpdate p (calculateExpiryDate p.durationType p.durationValue now) e).revokedReason =
        none) := by
  constructor
  · rw [grantAccess_def]
    exact grantEnts_keyUnique_fold p
      (calculateExpiryDate p.durationType p.durationValue now) now p.productIds
      (db.entitlements, db.nextEntitlementId) hku
  · intro pid e hpids hmem hkey
    have huniq : ∀ x ∈ db.entitlements,
        entMatchesKey p.identityId pid p.source p.sourceApp x = true → x = e := by
      intro x hx hxkey
      apply nodup_map_inj hku hx hmem
      rw [(entMatchesKey_iff _ _ _ _ x).mp hxkey, (entMatchesKey_iff _ _ _ _ e).mp hkey]
    have hfind : db.entitlements.find?
        (entMatchesKey p.identityId pid p.source p.sourceApp) = some e :=
      find?_eq_some_of_unique _ e db.entitlements hmem hkey huniq
    have hmain : (grantAccess p now db).entitlements =
        db.entitlements.map (fun r =>
          if r.id = e.id then
            grantUpdate p (calculateExpiryDate p.durationType p.durationValue now) r
          else r) := by
      rw [grantAccess_def]
      show (grantEnts p (calculateExpiryDate p.durationType p.durationValue now) now
        (db.entitlements, db.nextEntitlementId)).1 = _
      unfold grantEnts
      rw [hpids, List.foldl_cons, List.foldl_nil,
        grantOne_found p (calculateExpiryDate p.durationType p.durationValue now) now
          (db.entitlements, db.nextEntitlementId) pid e hfind]
    refine ⟨hmain, ?_, rfl, rfl, rfl⟩
    rw [hmain, List.length_map]

/-- Witness for C5: re-granting over an existing bundle row. -/
theorem c5_grant_key_unique_inplace_witness :
    (KeyUnique dbC5.entitlements ∧ pC5.productIds = ["rezume"] ∧ entC5 ∈ dbC5.entitlements ∧
      entMatchesKey pC5.identityId "rezume" pC5.source pC5.sourceApp entC5 = true) ∧
    (KeyUnique (grantAccess pC5 nowW dbC5).entitlements ∧
      (grantAccess pC5 nowW dbC5).entitlements =
        dbC5.entitlements.map (fun r =>
          if r.id = entC5.id then
            grantUpdate pC5 (calculateExpiryDate pC5.durationType pC5.durationValue nowW) r
          else r) ∧
      (grantAccess pC5 nowW dbC5).entitlements.length = dbC5.entitlements.length) :=
  ⟨⟨by decide, rfl, by decide, by decide⟩,
    (c5_grant_key_unique_inplace pC5 nowW dbC5 (by decide)).1,
    ((c5_grant_key_unique_inplace pC5 nowW dbC5 (by decide)).2 "rezume" entC5 rfl
      (by decide) (by decide)).1,
    ((c5_grant_key_unique_inplace pC5 nowW dbC5 (by decide)).2 "rezume" entC5 rfl
      (by decide) (by decide)).2.1⟩

/-! ## C1 -/

/-- C1 fails as stated: the JS setters roll an overflowing day over into
the following month instead of clamping. Jan 31 2025 plus one month is
March 3 2025 — not the last day of February (Feb 28 2025). Feb 29 2024
plus one year lands on the valid date March 1 2025, also not clamped. -/
theorem c1_counterexample :
    calculateExpiryDate .months (some 1) ⟨2025, 0, 31⟩ = some ⟨2025, 2, 3⟩ ∧
    daysInMonth 2025 1 = 28 ∧
    calculateExpiryDate .months (some 1) ⟨2025, 0, 31⟩ ≠ some ⟨2025, 1, 28⟩ ∧
    calculateExpiryDate .years (some 1) ⟨2024, 1, 29⟩ = some ⟨2025, 2, 1⟩ := by
  decide

/-- C1 (amended): `calculateExpiryDate` maps lifetime or a missing/zero
duration value to no expiry, and any other duration from a valid date to a
valid calendar date, never erroring; month and year overflow rolls over
into the following month (per the counterexample) rather than clamping to
the end of the target month. -/
theorem c1_expiry_total_valid (dt : DurationType) (v : Option Nat) (now : Civil)
    (hnow : ValidCivil now) :
    calculateExpiryDate .lifetime v now = none ∧
    calculateExpiryDate dt none now = none ∧
    calculateExpiryDate dt (some 0) now = none ∧
    ∀ c, calculateExpiryDate dt v now = some c → ValidCivil c := by
  refine ⟨?_, ?_, ?_, ?_⟩
  · cases v with
    | none => rfl
    | some n =>
      cases n with
      | zero => rfl
      | succ m => rfl
  · cases dt <;> rfl
  · cases dt <;> rfl
  · intro c hc
    cases dt with
    | lifetime => exact absurd hc (by simp [calculateExpiryDate])
    | days =>
      cases v with
      | none => exact absurd hc (by simp [calculateExpiryDate])
      | some n =>
        cases n with
        | zero => exact absurd hc (by simp [calculateExpiryDate])
        | succ m =>
          have : jsAddDays now (m + 1) = c := by
            simpa [calculateExpiryDate] using hc
          rw [← this]
          exact normDay_valid now.year now.month (now.day + (m + 1)) hnow.1 (by omega)
    | months =>
      cases v with
      | none => exact absurd hc (by simp [calculateExpiryDate])
      | some n =>
        cases n with
        | zero => exact absurd hc (by simp [calculateExpiryDate])
        | succ m =>
          have : jsAddMonths now (m + 1) = c := by
            simpa [calculateExpiryDate] using hc
          rw [← this]
          exact normDay_valid _ _ now.day (Nat.mod_lt _ (by omega)) hnow.2.1
    | years =>
      cases v with
      | none => exact absurd hc (by simp [calculateExpiryDate])
      | some n =>
        cases n with
        | zero => exact absurd hc (by simp [calculateExpiryDate])
        | succ m =>
          have : jsAddYears now (m + 1) = c := by
            simpa [calculateExpiryDate] using hc
          rw [← this]
          exact normDay_valid _ now.month now.day hnow.1 hnow.2.1

/-- Witness for the amended C1: 20 days from Jan 15 2025 is the valid date
Feb 4 2025. -/
theorem c1_expiry_total_valid_witness :
    ValidCivil ⟨2025, 0, 15⟩ ∧ ValidCivil ⟨2025, 1, 4⟩ :=
  ⟨by decide, (c1_expiry_total_valid .days (some 20) ⟨2025, 0, 15⟩ (by decide)).2.2.2
    ⟨2025, 1, 4⟩ (by decide)⟩

/-! ## C7 -/

theorem syncToApps_shape (pids : List String) (em : EmailStr) (tier reason : String)
    (db : DB) :
    ∃ sp, syncToApps pids em tier reason db = { db with syncPushes := sp } := by
  unfold syncToApps
  exact ⟨_, rfl⟩

/-- C7: `revokeEntitlementById` sets revokedAt/revokedReason on exactly the
row named by entitlementId, leaves every other Entitlement row unchanged,
then recomputes whether any other active row remains for that
(identity, product): if one remains no revocation sync is dispatched, and a
sync dispatch implies none remained. -/
theorem c7_revoke_one_frame (entitlementId : Nat) (reason adminEmail : Option String)
    (now : Civil) (db db' : DB) (e : Entitlement) (idty : Identity)
    (hfind : db.entitlements.find? (fun x => decide (x.id = entitlementId)) = some e)
    (hidf : db.identities.find? (fun i => decide (i.id = e.identityId)) = some idty)
    (hrun : revokeEntitlementById entitlementId reason adminEmail now db = .ok db') :
    db'.entitlements = db.entitlements.map (fun x =>
      if x.id = entitlementId then
        { x with revokedAt := some now, revokedReason := reason } else x) ∧
    (∀ x ∈ db.entitlements, x.id ≠ entitlementId → x ∈ db'.entitlements) ∧
    ((db'.entitlements.filter (fun x =>
        decide (x.identityId = e.identityId ∧ x.productId = e.productId) &&
          activeAt now x)).length ≠ 0 →
      db'.syncPushes = db.syncPushes) ∧
    (db'.syncPushes ≠ db.syncPushes →
      (db'.entitlements.filter (fun x =>
        decide (x.identityId = e.identityId ∧ x.productId = e.productId) &&
          activeAt now x)).length = 0) := by
  unfold revokeEntitlementById at hrun
  simp only [hfind, hidf] at hrun
  have hents : ∀ dbout : DB, db' = dbout →
      dbout.entitlements = db.entitlements.map (fun x =>
        if x.id = entitlementId then
          { x with revokedAt := some now, revokedReason := reason } else x) →
      (∀ x ∈ db.entitlements, x.id ≠ entitlementId → x ∈ dbout.entitlements) := by
    intro dbout hout hmap x hx hne
    rw [hmap]
    exact List.mem_map.mpr ⟨x, hx, by rw [if_neg hne]⟩
  split at hrun
  · rename_i hcond
    have hd := Except.ok.inj hrun
    have hmap : db'.entitlements = db.entitlements.map (fun x =>
        if x.id = entitlementId then
          { x with revokedAt := some now, revokedReason := reason } else x) := by
      rw [← hd]
      unfold revokeAccessAndSync
      obtain ⟨sp2, hsp2⟩ := syncToApps_shape [e.productId] idty.primaryEmail "free"
        (revokeSingleReason reason adminEmail)
        { db with
          entitlements := db.entitlements.map (fun x =>
            if x.id = entitlementId then
              { x with revokedAt := some now, revokedReason := reason } else x),
          auditLog := db.auditLog ++
            [⟨"revoke_single", e.identityId, [e.productId], adminEmail⟩] }
      rw [hsp2]
    refine ⟨hmap, hents db' rfl hmap, ?_, ?_⟩
    · intro hlen
      exact absurd (by rw [hmap] at hlen; exact hcond.1) (by
        rw [hmap] at hlen
        exact hlen)
    · intro _
      rw [hmap]
      exact hcond.1
  · rename_i hcond
    have hd := Except.ok.inj hrun
    have hmap : db'.entitlements = db.entitlements.map (fun x =>
        if x.id = entitlementId then
          { x with revokedAt := some now, revokedReason := reason } else x) := by
      rw [← hd]
    have hsync : db'.syncPushes = db.syncPushes := by
      rw [← hd]
    refine ⟨hmap, hents db' rfl hmap, fun _ => hsync, fun hne => absurd hsync hne⟩

def entC7a : Entitlement :=
  { id := 7, identityId := 1, productId := "rezume", source := "bundle",
    sourceApp := "central", bundleId := some 1, grantedAt := ⟨2025, 5, 1⟩,
    expiresAt := none, revokedAt := none, revokedReason := none,
    stripeSubscriptionId := none, stripePriceId := none,
    amountPaid := none, currency := none }

def entC7b : Entitlement :=
  { id := 9, identityId := 1, productId := "rezume", source := "direct",
    sourceApp := "rezume", bundleId := none, grantedAt := ⟨2025, 7, 1⟩,
    expiresAt := none, revokedAt := none, revokedReason := none,
    stripeSubscriptionId := some "sub_1", stripePriceId := none,
    amountPaid := none, currency := none }

def idtyC7 : Identity := ⟨1, emW, none⟩

def dbC7 : DB :=
  { dbW with entitlements := [entC7a, entC7b], nextEntitlementId := 10,
             identities := [idtyC7], nextIdentityId := 2 }

def dbC7out : DB :=
  match revokeEntitlementById 7 (some "refund") none nowW dbC7 with
  | .ok d => d
  | .error _ => dbC7

/-- Witness for C7: revoking one of two active rows for the same product
leaves the other row in place and dispatches no sync. -/
theorem c7_revoke_one_frame_witness :
    (dbC7.entitlements.find? (fun x => decide (x.id = 7)) = some entC7a ∧
     dbC7.identities.find? (fun i => decide (i.id = entC7a.identityId)) = some idtyC7 ∧
     revokeEntitlementById 7 (some "refund") none nowW dbC7 = .ok dbC7out) ∧
    (dbC7out.entitlements = dbC7.entitlements.map (fun x =>
        if x.id = 7 then
          { x with revokedAt := some nowW, revokedReason := some "refund" } else x) ∧
     (∀ x ∈ dbC7.entitlements, x.id ≠ 7 → x ∈ dbC7out.entitlements) ∧
     ((dbC7out.entitlements.filter (fun x =>
         decide (x.identityId = entC7a.identityId ∧ x.productId = entC7a.productId) &&
           activeAt nowW x)).length ≠ 0 →
       dbC7out.syncPushes = dbC7.syncPushes) ∧
     (dbC7out.syncPushes ≠ dbC7.syncPushes →
       (dbC7out.entitlements.filter (fun x =>
         decide (x.identityId = entC7a.identityId ∧ x.productId = entC7a.productId) &&
           activeAt nowW x)).length = 0)) :=
  ⟨⟨by decide, by decide, rfl⟩,
    c7_revoke_one_frame 7 (some "refund") none nowW dbC7 dbC7out entC7a idtyC7
      (by decide) (by decide) rfl⟩

/-! ## C9 -/

theorem report_revoke_ents (p : ReportParams) (now : Civil) (db : DB)
    (ha : p.action = .revoke) :
    (reportExternalSubscription p now db).entitlements =
      db.entitlements.map (fun x =>
        if reportRevokeFilter (getOrCreateIdentity (toLowerStr p.email) none db).1.id
            p.productId p.sourceApp p.stripeSubscriptionId x then
          { x with revokedAt := some now, revokedReason := some (reportRevokeReason p) }
        else x) := by
  obtain ⟨bs, hu⟩ := upsertKeep_shape (getOrCreateIdentity (toLowerStr p.email) none db).1.id
    (toLowerStr p.email) p.productId (getOrCreateIdentity (toLowerStr p.email) none db).2
  unfold reportExternalSubscription
  rw [show getOrCreateIdentity (toLowerStr p.email) none db =
    ((getOrCreateIdentity (toLowerStr p.email) none db).1,
     (getOrCreateIdentity (toLowerStr p.email) none db).2) from rfl]
  simp only [ha]
  rw [hu, getOrCreateIdentity_snd]

theorem report_grant_ents_found (p : ReportParams) (now : Civil) (db : DB)
    (e : Entitlement) (ha : p.action = .grant)
    (hf : db.entitlements.find? (entMatchesKey
      (getOrCreateIdentity (toLowerStr p.email) none db).1.id
      p.productId "direct" p.sourceApp) = some e) :
    (reportExternalSubscription p now db).entitlements =
      db.entitlements.map (fun r => if r.id = e.id then reportGrantUpdate p r else r) := by
  obtain ⟨bs, hu⟩ := upsertKeep_shape (getOrCreateIdentity (toLowerStr p.email) none db).1.id
    (toLowerStr p.email) p.productId (getOrCreateIdentity (toLowerStr p.email) none db).2
  unfold reportExternalSubscription
  rw [show getOrCreateIdentity (toLowerStr p.email) none db =
    ((getOrCreateIdentity (toLowerStr p.email) none db).1,
     (getOrCreateIdentity (toLowerStr p.email) none db).2) from rfl]
  simp only [ha]
  rw [hu]
  simp only [getOrCreateIdentity_snd, hf]

theorem report_grant_ents_created (p : ReportParams) (now : Civil) (db : DB)
    (ha : p.action = .grant)
    (hf : db.entitlements.find? (entMatchesKey
      (getOrCreateIdentity (toLowerStr p.email) none db).1.id
      p.productId "direct" p.sourceApp) = none) :
    (reportExternalSubscription p now db).entitlements =
      db.entitlements ++
        [reportNewEnt p now (getOrCreateIdentity (toLowerStr p.email) none db).1.id
          db.nextEntitlementId] := by
  obtain ⟨bs, hu⟩ := upsertKeep_shape (getOrCreateIdentity (toLowerStr p.email) none db).1.id
    (toLowerStr p.email) p.productId (getOrCreateIdentity (toLowerStr p.email) none db).2
  unfold reportExternalSubscription
  rw [show getOrCreateIdentity (toLowerStr p.email) none db =
    ((getOrCreateIdentity (toLowerStr p.email) none db).1,
     (getOrCreateIdentity (toLowerStr p.email) none db).2) from rfl]
  simp only [ha]
  rw [hu]
  simp only [getOrCreateIdentity_snd, hf]

/-- C9: an external-subscription report with action=revoke sets revokedAt
only on rows matching (identity, product, source="direct", sourceApp),
narrowed to the reported subscription id when supplied, and leaves every
row of another source, sourceApp or product unchanged; action=grant
creates or refreshes only the (identity, product, "direct", sourceApp)
row and leaves every other row — in particular every bundle-sourced
row — unchanged. -/
theorem c9_report_scoped (p : ReportParams) (now : Civil) (db : DB)
    (hwf : EntsWF db.entitlements db.nextEntitlementId) :
    (p.action = .revoke →
      (reportExternalSubscription p now db).entitlements =
        db.entitlements.map (fun x =>
          if reportRevokeFilter (getOrCreateIdentity (toLowerStr p.email) none db).1.id
              p.productId p.sourceApp p.stripeSubscriptionId x then
            { x with revokedAt := some now, revokedReason := some (reportRevokeReason p) }
          else x) ∧
      (∀ x ∈ db.entitlements,
        x.source ≠ "direct" ∨ x.sourceApp ≠ p.sourceApp ∨ x.productId ≠ p.productId →
        x ∈ (reportExternalSubscription p now db).entitlements)) ∧
    (p.action = .grant →
      (∀ x ∈ db.entitlements,
        x.source ≠ "direct" ∨ x.sourceApp ≠ p.sourceApp ∨ x.productId ≠ p.productId →
        x ∈ (reportExternalSubscription p now db).entitlements) ∧
      (∃ r ∈ (reportExternalSubscription p now db).entitlements,
        entKey r = ((getOrCreateIdentity (toLowerStr p.email) none db).1.id, p.productId,
          "direct", p.sourceApp) ∧
        r.expiresAt = p.expiresAt ∧ r.revokedAt = none ∧ r.revokedReason = none ∧
        r.stripeSubscriptionId = p.stripeSubscriptionId)) := by
  constructor
  · intro ha
    refine ⟨report_revoke_ents p now db ha, ?_⟩
    intro x hx hother
    rw [report_revoke_ents p now db ha]
    refine List.mem_map.mpr ⟨x, hx, ?_⟩
    have hfalse : reportRevokeFilter (getOrCreateIdentity (toLowerStr p.email) none db).1.id
        p.productId p.sourceApp p.stripeSubscriptionId x = false := by
      unfold reportRevokeFilter entMatchesKey
      rcases hother with h | h | h <;> simp [h]
    rw [hfalse]
    rfl
  · intro ha
    cases hf : db.entitlements.find? (entMatchesKey
        (getOrCreateIdentity (toLowerStr p.email) none db).1.id
        p.productId "direct" p.sourceApp) with
    | some e =>
      have hge := report_grant_ents_found p now db e ha hf
      have hemem : e ∈ db.entitlements := List.mem_of_find?_eq_some hf
      have hekey := (entMatchesKey_iff _ _ _ _ e).mp (List.find?_some hf)
      constructor
      · intro x hx hother
        rw [hge]
        refine List.mem_map.mpr ⟨x, hx, ?_⟩
        have hne : ¬(x.id = e.id) := by
          intro hid
          have hxe : x = e := nodup_map_inj hwf.2 hx hemem hid
          subst hxe
          have h1 : x.source = "direct" := by
            have := congrArg (fun k => k.2.2.1) hekey
            simpa [entKey] using this
          have h2 : x.sourceApp = p.sourceApp := by
            have := congrArg (fun k => k.2.2.2) hekey
            simpa [entKey] using this
          have h3 : x.productId = p.productId := by
            have := congrArg (fun k => k.2.1) hekey
            simpa [entKey] using this
          rcases hother with h | h | h
          · exact h h1
          · exact h h2
          · exact h h3
        rw [if_neg hne]
      · refine ⟨reportGrantUpdate p e, ?_, ?_, rfl, rfl, rfl, rfl⟩
        · rw [hge]
          exact List.mem_map.mpr ⟨e, hemem, by rw [if_pos rfl]⟩
        · show entKey e = _
          exact hekey
    | none =>
      have hge := report_grant_ents_created p now db ha hf
      constructor
      · intro x hx _
        rw [hge]
        exact List.mem_append_left _ hx
      · refine ⟨reportNewEnt p now (getOrCreateIdentity (toLowerStr p.email) none db).1.id
          db.nextEntitlementId, ?_, rfl, rfl, rfl, rfl, rfl⟩
        rw [hge]
        exact List.mem_append_right _ (List.mem_singleton_self _)

def rpC9 : ReportParams :=
  { email := emW, productId := "rezume", action := .revoke, sourceApp := "rezume",
    stripeSubscriptionId := none, stripePriceId := none, amountPaid := none,
    currency := none, expiresAt := none, reason := some "cancelled" }

/-- Witness for C9: an external revoke from the rezume app leaves the
bundle-sourced row for the same product untouched. -/
theorem c9_report_scoped_witness :
    (EntsWF dbC7.entitlements dbC7.nextEntitlementId ∧ rpC9.action = .revoke ∧
      entC7a ∈ dbC7.entitlements ∧ entC7a.source ≠ "direct") ∧
    entC7a ∈ (reportExternalSubscription rpC9 nowW dbC7).entitlements :=
  ⟨⟨by decide, rfl, by decide, by decide⟩,
    ((c9_report_scoped rpC9 nowW dbC7 (by decide)).1 rfl).2 entC7a (by decide)
      (Or.inl (by decide))⟩

/-! ## C8 -/

theorem civilLt_irrefl (a : Civil) : civilLt a a = false := by
  rw [Bool.eq_false_iff]
  intro h
  rw [civilLt_iff] at h
  omega

theorem civilLt_asymm (a b : Civil) (h : civilLt a b = true) : civilLt b a = false := by
  rw [Bool.eq_false_iff]
  intro h'
  rw [civilLt_iff] at h h'
  omega

theorem civilLt_trans (a b c : Civil) (h1 : civilLt a b = true) (h2 : civilLt b c = true) :
    civilLt a c = true := by
  rw [civilLt_iff] at h1 h2 ⊢
  omega

theorem civilLt_trans_not (a b c : Civil) (h1 : civilLt a b = true)
    (h2 : civilLt c b = false) : civilLt a c = true := by
  simp only [Bool.eq_false_iff, ne_eq, civilLt_iff] at h2
  rw [civilLt_iff] at h1 ⊢
  omega

/-- The fold underlying `pickLatest`. -/
def latestOf (a : Entitlement) (l : List Entitlement) : Entitlement :=
  l.foldl (fun best x => if civilLt best.grantedAt x.grantedAt then x else best) a

theorem latestOf_mem : ∀ (l : List Entitlement) (a : Entitlement),
    latestOf a l = a ∨ latestOf a l ∈ l := by
  intro l
  induction l with
  | nil => intro a; exact Or.inl rfl
  | cons x xs ih =>
    intro a
    unfold latestOf at ih ⊢
    rw [List.foldl_cons]
    cases ih (if civilLt a.grantedAt x.grantedAt then x else a) with
    | inl h =>
      rw [h]
      by_cases hlt : civilLt a.grantedAt x.grantedAt = true
      · rw [if_pos hlt]
        exact Or.inr (List.mem_cons_self x xs)
      · rw [if_neg hlt]
        exact Or.inl rfl
    | inr h => exact Or.inr (List.mem_cons_of_mem x h)

theorem latestOf_max : ∀ (l : List Entitlement) (a : Entitlement),
    ∀ y ∈ a :: l, civilLt (latestOf a l).grantedAt y.grantedAt = false := by
  intro l
  induction l with
  | nil =>
    intro a y hy
    rw [List.mem_singleton.mp hy]
    exact civilLt_irrefl _
  | cons x xs ih =>
    intro a y hy
    unfold latestOf at ih ⊢
    rw [List.foldl_cons]
    by_cases hlt : civilLt a.grantedAt x.grantedAt = true
    · rw [if_pos hlt]
      cases List.mem_cons.mp hy with
      | inl hya =>
        subst hya
        have hMx := ih x x (List.mem_cons_self x xs)
        rw [Bool.eq_false_iff]
        intro hMy
        have := civilLt_trans _ _ _ hMy hlt
        rw [this] at hMx
        exact absurd hMx (by simp)
      | inr hy' =>
        cases List.mem_cons.mp hy' with
        | inl hyx =>
          subst hyx
          exact ih y y (List.mem_cons_self y xs)
        | inr hyxs => exact ih x y (List.mem_cons_of_mem x hyxs)
    · rw [if_neg hlt]
      have hlt' : civilLt a.grantedAt x.grantedAt = false := by
        cases hc : civilLt a.grantedAt x.grantedAt
        · rfl
        · exact absurd hc hlt
      cases List.mem_cons.mp hy with
      | inl hya =>
        subst hya
        exact ih y y (List.mem_cons_self y xs)
      | inr hy' =>
        cases List.mem_cons.mp hy' with
        | inl hyx =>
          subst hyx
          have hMa := ih a a (List.mem_cons_self a xs)
          rw [Bool.eq_false_iff]
          intro hMy
          have := civilLt_trans_not _ _ _ hMy hlt'
          rw [this] at hMa
          exact absurd hMa (by simp)
        | inr hyxs => exact ih a y (List.mem_cons_of_mem a hyxs)

theorem pickLatest_eq_latestOf (a : Entitlement) (l : List Entitlement) :
    pickLatest (a :: l) = some (latestOf a l) := rfl

theorem pickLatest_mem (l : List Entitlement) (e : Entitlement)
    (h : pickLatest l = some e) : e ∈ l := by
  cases l with
  | nil => cases h
  | cons a xs =>
    rw [pickLatest_eq_latestOf] at h
    have he := Option.some.inj h
    cases latestOf_mem xs a with
    | inl h' =>
      rw [← he, h']
      exact List.mem_cons_self a xs
    | inr h' =>
      rw [← he]
      exact List.mem_cons_of_mem a h'

theorem pickLatest_max (l : List Entitlement) (e : Entitlement)
    (h : pickLatest l = some e) :
    ∀ y ∈ l, civilLt e.grantedAt y.grantedAt = false := by
  cases l with
  | nil => cases h
  | cons a xs =>
    rw [pickLatest_eq_latestOf] at h
    have he := Option.some.inj h
    intro y hy
    rw [← he]
    exact latestOf_max xs a y hy

/-- The identity whose rows `checkAccess` consults: the product binding's
identity when the `(email, productId)` binding exists, else the first
identity carrying the normalized email as primary email. -/
def resolvedIdentity (email : EmailStr) (productId : String) (db : DB) : Option Identity :=
  match db.identityEmails.find?
      (fun b => decide (b.email = toLowerStr email ∧ b.productId = productId)) with
  | some binding => db.identities.find? (fun i => decide (i.id = binding.identityId))
  | none => db.identities.find? (fun i => decide (i.primaryEmail = toLowerStr email))

theorem activeEnt_props (db : DB) (idt : Nat) (productId : String) (now : Civil)
    (e : Entitlement) (he : e ∈ activeEntsFor db idt productId now) :
    e ∈ db.entitlements ∧ e.identityId = idt ∧ e.productId = productId ∧
    e.revokedAt = none ∧
    (match e.expiresAt with | none => True | some x => civilLt now x = true) := by
  unfold activeEntsFor at he
  have hmem := List.mem_filter.mp he
  obtain ⟨h1, h2⟩ := hmem
  rw [Bool.and_eq_true] at h2
  obtain ⟨hid, hact⟩ := h2
  unfold entForProductActive at hact
  rw [Bool.and_eq_true] at hact
  obtain ⟨hpa, hexp⟩ := hact
  rw [Bool.and_eq_true] at hpa
  obtain ⟨hprod, hrev⟩ := hpa
  refine ⟨h1, by simpa using hid, by simpa using hprod, ?_, ?_⟩
  · exact Option.isNone_iff_eq_none.mp hrev
  · cases hx : e.expiresAt with
    | none => trivial
    | some x =>
      rw [hx] at hexp
      exact hexp

theorem checkEntitlementAccess_of_active (db : DB) (idt : Nat) (productId : String)
    (now : Civil) (e : Entitlement) (he : e ∈ activeEntsFor db idt productId now) :
    checkEntitlementAccess db now e productId =
      ⟨true, productId, some e.source, bundleNameFor db e.bundleId,
        some e.expiresAt, some e.grantedAt⟩ := by
  obtain ⟨_, _, _, hrev, hexp⟩ := activeEnt_props db idt productId now e he
  unfold checkEntitlementAccess
  rw [if_neg (by rw [hrev]; simp)]
  rw [if_neg ?_]
  cases hx : e.expiresAt with
  | none => simp
  | some x =>
    rw [hx] at hexp
    simp [civilLt_asymm _ _ hexp]

/-- C8: `checkAccess` resolves the identity via the direct
`(email, productId)` binding, else via primary email; among the active
(non-revoked, non-expired) rows of that identity for the product it
returns the most recently granted one's source/bundle/expiry; and it
returns hasAccess = false — never an error — whenever no identity
resolves or no active row exists (all revoked or all expired). -/
theorem c8_checkAccess (email : EmailStr) (productId : String) (now : Civil) (db : DB) :
    (resolvedIdentity email productId db = none →
      checkAccess email productId now db = noAccess productId) ∧
    (∀ idty, resolvedIdentity email productId db = some idty →
      (activeEntsFor db idty.id productId now = [] →
        checkAccess email productId now db = noAccess productId) ∧
      (∀ e, pickLatest (activeEntsFor db idty.id productId now) = some e →
        checkAccess email productId now db =
          ⟨true, productId, some e.source, bundleNameFor db e.bundleId,
            some e.expiresAt, some e.grantedAt⟩ ∧
        e ∈ activeEntsFor db idty.id productId now ∧
        ∀ y ∈ activeEntsFor db idty.id productId now,
          civilLt e.grantedAt y.grantedAt = false)) := by
  cases hbind : db.identityEmails.find?
      (fun b => decide (b.email = toLowerStr email ∧ b.productId = productId)) with
  | some binding =>
    cases hidf : db.identities.find? (fun i => decide (i.id = binding.identityId)) with
    | none =>
      have hres : resolvedIdentity email productId db = none := by
        unfold resolvedIdentity
        simp only [hbind, hidf]
      have hca : checkAccess email productId now db = noAccess productId := by
        unfold checkAccess
        simp only [hbind, hidf]
      refine ⟨fun _ => hca, fun idty hidty => ?_⟩
      rw [hres] at hidty
      exact absurd hidty.symm (Option.some_ne_none _)
    | some found =>
      have hfid : found.id = binding.identityId := by
        have := List.find?_some hidf
        simpa using this
      have hres : resolvedIdentity email productId db = some found := by
        unfold resolvedIdentity
        simp only [hbind, hidf]
      have hca : checkAccess email productId now db =
          match pickLatest (activeEntsFor db binding.identityId productId now) with
          | none => noAccess productId
          | some e => checkEntitlementAccess db now e productId := by
        unfold checkAccess
        simp only [hbind, hidf]
      refine ⟨fun hn => ?_, fun idty hidty => ?_⟩
      · rw [hres] at hn
        exact absurd hn (Option.some_ne_none _)
      · rw [hres] at hidty
        have hi : found = idty := Option.some.inj hidty
        subst hi
        rw [hfid]
        constructor
        · intro hempty
          rw [hca, hempty]
          rfl
        · intro e hpick
          rw [hca]
          simp only [hpick]
          exact ⟨checkEntitlementAccess_of_active db binding.identityId productId now e
              (pickLatest_mem _ e hpick),
            pickLatest_mem _ e hpick, pickLatest_max _ e hpick⟩
  | none =>
    cases hidf : db.identities.find?
        (fun i => decide (i.primaryEmail = toLowerStr email)) with
    | none =>
      have hres : resolvedIdentity email productId db = none := by
        unfold resolvedIdentity
        simp only [hbind, hidf]
      have hca : checkAccess email productId now db = noAccess productId := by
        unfold checkAccess
        simp only [hbind, hidf]
      refine ⟨fun _ => hca, fun idty hidty => ?_⟩
      rw [hres] at hidty
      exact absurd hidty.symm (Option.some_ne_none _)
    | some found =>
      have hres : resolvedIdentity email productId db = some found := by
        unfold resolvedIdentity
        simp only [hbind, hidf]
      have hca : checkAccess email productId now db =
          match pickLatest (activeEntsFor db found.id productId now) with
          | none => noAccess productId
          | some e => checkEntitlementAccess db now e productId := by
        unfold checkAccess
        simp only [hbind, hidf]
      refine ⟨fun hn => ?_, fun idty hidty => ?_⟩
      · rw [hres] at hn
        exact absurd hn (Option.some_ne_none _)
      · rw [hres] at hidty
        have hi : found = idty := Option.some.inj hidty
        subst hi
        constructor
        · intro hempty
          rw [hca, hempty]
          rfl
        · intro e hpick
          rw [hca]
          simp only [hpick]
          exact ⟨checkEntitlementAccess_of_active db found.id productId now e
              (pickLatest_mem _ e hpick),
            pickLatest_mem _ e hpick, pickLatest_max _ e hpick⟩

/-- Witness for C8: an identity resolved by primary email with two active
rows for the product; the more recently granted row is returned. -/
theorem c8_checkAccess_witness :
    (resolvedIdentity emW "rezume" dbC7 = some idtyC7 ∧
     pickLatest (activeEntsFor dbC7 idtyC7.id "rezume" nowW) = some entC7b) ∧
    (checkAccess emW "rezume" nowW dbC7 =
        ⟨true, "rezume", some entC7b.source, bundleNameFor dbC7 entC7b.bundleId,
          some entC7b.expiresAt, some entC7b.grantedAt⟩ ∧
     entC7b ∈ activeEntsFor dbC7 idtyC7.id "rezume" nowW ∧
     ∀ y ∈ activeEntsFor dbC7 idtyC7.id "rezume" nowW,
       civilLt entC7b.grantedAt y.grantedAt = false) :=
  ⟨⟨by decide, by decide⟩,
    ((c8_checkAccess emW "rezume" nowW dbC7).2 idtyC7 (by decide)).2 entC7b (by decide)⟩

/-! ## C10 -/

/-- Every stored email value — identity primary emails and
`(email, productId)` binding emails — is lower-cased. -/
def EmailsLower (db : DB) : Prop :=
  (∀ i ∈ db.identities, toLowerStr i.primaryEmail = i.primaryEmail) ∧
  (∀ b ∈ db.identityEmails, toLowerStr b.email = b.email)

instance (db : DB) : Decidable (EmailsLower db) := by
  unfold EmailsLower; infer_instance

theorem gocCore_mem (email : EmailStr) (cid : Option String)
    (st : List Identity × Nat) (i : Identity)
    (hi : i ∈ (gocCore email cid st).2.1) :
    i ∈ st.1 ∨ i.primaryEmail = toLowerStr email ∨
      ∃ j ∈ st.1, i.primaryEmail = j.primaryEmail := by
  cases hf : st.1.find? (fun x => decide (x.primaryEmail = toLowerStr email)) with
  | none =>
    rw [gocCore_notFound email cid st hf] at hi
    simp only [List.mem_append, List.mem_singleton] at hi
    cases hi with
    | inl h1 => exact Or.inl h1
    | inr h2 => exact Or.inr (Or.inl (by rw [h2]))
  | some f =>
    have hfmem : f ∈ st.1 := List.mem_of_find?_eq_some hf
    rw [gocCore_found email cid st f hf] at hi
    cases cid with
    | none => exact Or.inl hi
    | some c =>
      cases hc : f.stripeCustomerId with
      | some c' =>
        rw [hc] at hi
        exact Or.inl hi
      | none =>
        rw [hc] at hi
        have hi' : i ∈ st.1.map (fun x =>
            if x.id = f.id then { f with stripeCustomerId := some c } else x) := hi
        obtain ⟨x, hx, hxi⟩ := List.mem_map.mp hi'
        by_cases hid : x.id = f.id
        · rw [if_pos hid] at hxi
          exact Or.inr (Or.inr ⟨f, hfmem, by rw [← hxi]⟩)
        · rw [if_neg hid] at hxi
          rw [← hxi]
          exact Or.inl hx

theorem emailsLower_goc (email : EmailStr) (cid : Option String) (db : DB)
    (h : EmailsLower db) : EmailsLower (getOrCreateIdentity email cid db).2 := by
  rw [getOrCreateIdentity_def]
  refine ⟨?_, h.2⟩
  intro i hi
  have hi' : i ∈ (gocCore email cid (db.identities, db.nextIdentityId)).2.1 := hi
  rcases gocCore_mem email cid (db.identities, db.nextIdentityId) i hi' with
    h1 | h2 | ⟨j, hj, hji⟩
  · exact h.1 i h1
  · rw [h2]
    exact toLowerStr_idem email
  · rw [hji]
    exact h.1 j hj

theorem emailsLower_link (identityId : Nat) (email : EmailStr) (pid : String)
    (db : DB) (h : EmailsLower db) :
    EmailsLower (linkEmailToIdentity identityId email pid db) := by
  unfold linkEmailToIdentity
  cases hf : db.identityEmails.find?
      (fun b => decide (b.email = toLowerStr email ∧ b.productId = pid)) with
  | some b0 =>
    refine ⟨h.1, ?_⟩
    intro b hb
    have hb' : b ∈ db.identityEmails.map (fun x =>
        if x.email = toLowerStr email ∧ x.productId = pid then
          { x with identityId := identityId } else x) := hb
    obtain ⟨x, hx, hxb⟩ := List.mem_map.mp hb'
    by_cases hc : x.email = toLowerStr email ∧ x.productId = pid
    · rw [if_pos hc] at hxb
      rw [← hxb]
      exact h.2 x hx
    · rw [if_neg hc] at hxb
      rw [← hxb]
      exact h.2 x hx
  | none =>
    refine ⟨h.1, ?_⟩
    intro b hb
    have hb' : b ∈ db.identityEmails ++ [⟨identityId, toLowerStr email, pid⟩] := hb
    rcases List.mem_append.mp hb' with h1 | h2
    · exact h.2 b h1
    · rw [List.mem_singleton.mp h2]
      exact toLowerStr_idem email

theorem emailsLower_upsertKeep (identityId : Nat) (email : EmailStr) (pid : String)
    (db : DB) (h : EmailsLower db) :
    EmailsLower (upsertIdentityEmailKeep identityId email pid db) := by
  unfold upsertIdentityEmailKeep
  cases hf : db.identityEmails.find?
      (fun b => decide (b.email = toLowerStr email ∧ b.productId = pid)) with
  | some b0 => exact h
  | none =>
    refine ⟨h.1, ?_⟩
    intro b hb
    have hb' : b ∈ db.identityEmails ++ [⟨identityId, toLowerStr email, pid⟩] := hb
    rcases List.mem_append.mp hb' with h1 | h2
    · exact h.2 b h1
    · rw [List.mem_singleton.mp h2]
      exact toLowerStr_idem email

/-- `reportExternalSubscription` only writes the identity and binding
tables through `getOrCreateIdentity` and the keep-upsert. -/
theorem report_email_tables (p : ReportParams) (now : Civil) (db : DB) :
    (reportExternalSubscription p now db).identities =
      (upsertIdentityEmailKeep (getOrCreateIdentity (toLowerStr p.email) none db).1.id
        (toLowerStr p.email) p.productId
        (getOrCreateIdentity (toLowerStr p.email) none db).2).identities ∧
    (reportExternalSubscription p now db).identityEmails =
      (upsertIdentityEmailKeep (getOrCreateIdentity (toLowerStr p.email) none db).1.id
        (toLowerStr p.email) p.productId
        (getOrCreateIdentity (toLowerStr p.email) none db).2).identityEmails := by
  cases ha : p.action with
  | grant =>
    unfold reportExternalSubscription
    rw [show getOrCreateIdentity (toLowerStr p.email) none db =
      ((getOrCreateIdentity (toLowerStr p.email) none db).1,
       (getOrCreateIdentity (toLowerStr p.email) none db).2) from rfl]
    simp only [ha]
    cases (upsertIdentityEmailKeep (getOrCreateIdentity (toLowerStr p.email) none db).1.id
        (toLowerStr p.email) p.productId
        (getOrCreateIdentity (toLowerStr p.email) none db).2).entitlements.find?
        (entMatchesKey (getOrCreateIdentity (toLowerStr p.email) none db).1.id
          p.productId "direct" p.sourceApp) with
    | some e => exact ⟨rfl, rfl⟩
    | none => exact ⟨rfl, rfl⟩
  | revoke =>
    unfold reportExternalSubscription
    rw [show getOrCreateIdentity (toLowerStr p.email) none db =
      ((getOrCreateIdentity (toLowerStr p.email) none db).1,
       (getOrCreateIdentity (toLowerStr p.email) none db).2) from rfl]
    simp only [ha]
    exact ⟨trivial, trivial⟩

theorem emailsLower_report (p : ReportParams) (now : Civil) (db : DB)
    (h : EmailsLower db) : EmailsLower (reportExternalSubscription p now db) := by
  obtain ⟨hI, hE⟩ := report_email_tables p now db
  have key : EmailsLower (upsertIdentityEmailKeep
      (getOrCreateIdentity (toLowerStr p.email) none db).1.id (toLowerStr p.email)
      p.productId (getOrCreateIdentity (toLowerStr p.email) none db).2) :=
    emailsLower_upsertKeep _ _ _ _ (emailsLower_goc (toLowerStr p.email) none db h)
  constructor
  · intro i hi
    rw [hI] at hi
    exact key.1 i hi
  · intro b hb
    rw [hE] at hb
    exact key.2 b hb

/-- C10: access and identity resolution are invariant under the letter
case of the supplied email: `checkAccess` on an email equals `checkAccess`
on its lower-cased form, and every `Identity.primaryEmail` and
`IdentityEmail.email` value written by `getOrCreateIdentity`,
`linkEmailToIdentity` or `reportExternalSubscription` is lower-cased
(each preserves `EmailsLower`). -/
theorem c10_email_case_invariance :
    (∀ (email : EmailStr) (productId : String) (now : Civil) (db : DB),
      checkAccess email productId now db =
        checkAccess (toLowerStr email) productId now db) ∧
    (∀ (email : EmailStr) (cid : Option String) (db : DB), EmailsLower db →
      EmailsLower (getOrCreateIdentity email cid db).2) ∧
    (∀ (identityId : Nat) (email : EmailStr) (pid : String) (db : DB), EmailsLower db →
      EmailsLower (linkEmailToIdentity identityId email pid db)) ∧
    (∀ (p : ReportParams) (now : Civil) (db : DB), EmailsLower db →
      EmailsLower (reportExternalSubscription p now db)) := by
  refine ⟨?_, emailsLower_goc, emailsLower_link, emailsLower_report⟩
  intro email productId now db
  unfold checkAccess
  rw [toLowerStr_idem]

/-- "BUYer@x.co" as character codes: `emW` with mixed case. -/
def emUpper : EmailStr := [66, 85, 89, 101, 114, 64, 120, 46, 99, 111]

def rpC10 : ReportParams :=
  { email := emUpper, productId := "rezume", action := .grant,
    sourceApp := "rezume", stripeSubscriptionId := some "sub_9",
    stripePriceId := none, amountPaid := none, currency := none,
    expiresAt := none, reason := none }

/-- Witness for C10 at a concrete mixed-case email. -/
theorem c10_email_case_invariance_witness :
    EmailsLower dbW ∧
    (checkAccess emUpper "rezume" nowW dbC7 =
       checkAccess (toLowerStr emUpper) "rezume" nowW dbC7 ∧
     EmailsLower (getOrCreateIdentity emUpper none dbW).2 ∧
     EmailsLower (linkEmailToIdentity 1 emUpper "rezume" dbW) ∧
     EmailsLower (reportExternalSubscription rpC10 nowW dbW)) :=
  ⟨by decide,
   c10_email_case_invariance.1 emUpper "rezume" nowW dbC7,
   c10_email_case_invariance.2.1 emUpper none dbW (by decide),
   c10_email_case_invariance.2.2.1 1 emUpper "rezume" dbW (by decide),
   c10_email_case_invariance.2.2.2 rpC10 nowW dbW (by decide)⟩

/-! ## C3 -/

theorem claimLinkStep_none (i : Nat) (pe : String → Option ProductData)
    (d : DB) (pid : String) (hpe : pe pid = none) :
    claimLinkStep i pe d pid = d := by
  unfold claimLinkStep
  rw [hpe]

theorem claimLinkStep_some (i : Nat) (pe : String → Option ProductData)
    (d : DB) (pid : String) (pd : ProductData) (hpe : pe pid = some pd) :
    claimLinkStep i pe d pid =
      (let d1 := if pd.email ≠ [] then linkEmailToIdentity i pd.email pid d else d
       match pd.formData with
       | some fd =>
         { d1 with productSubmissions := d1.productSubmissions ++ [⟨i, pid, fd⟩] }
       | none => d1) := by
  unfold claimLinkStep
  rw [hpe]

theorem linkEmail_frame (i : Nat) (em : EmailStr) (pid : String) (d : DB) :
    (linkEmailToIdentity i em pid d).claimTokens = d.claimTokens ∧
    (linkEmailToIdentity i em pid d).entitlements = d.entitlements ∧
    (linkEmailToIdentity i em pid d).auditLog = d.auditLog ∧
    (linkEmailToIdentity i em pid d).productSubmissions = d.productSubmissions := by
  unfold linkEmailToIdentity
  cases d.identityEmails.find?
      (fun b => decide (b.email = toLowerStr em ∧ b.productId = pid)) with
  | some b => exact ⟨rfl, rfl, rfl, rfl⟩
  | none => exact ⟨rfl, rfl, rfl, rfl⟩

theorem claimLinkStep_frame (i : Nat) (pe : String → Option ProductData)
    (d : DB) (pid : String) :
    (claimLinkStep i pe d pid).claimTokens = d.claimTokens ∧
    (claimLinkStep i pe d pid).entitlements = d.entitlements ∧
    (claimLinkStep i pe d pid).auditLog = d.auditLog := by
  cases hpe : pe pid with
  | none =>
    rw [claimLinkStep_none i pe d pid hpe]
    exact ⟨rfl, rfl, rfl⟩
  | some pd =>
    rw [claimLinkStep_some i pe d pid pd hpe]
    have hX : ((if pd.email ≠ [] then linkEmailToIdentity i pd.email pid d else d) :
          DB).claimTokens = d.claimTokens ∧
        ((if pd.email ≠ [] then linkEmailToIdentity i pd.email pid d else d) :
          DB).entitlements = d.entitlements ∧
        ((if pd.email ≠ [] then linkEmailToIdentity i pd.email pid d else d) :
          DB).auditLog = d.auditLog := by
      by_cases hne : pd.email ≠ []
      · rw [if_pos hne]
        exact ⟨(linkEmail_frame i pd.email pid d).1,
          (linkEmail_frame i pd.email pid d).2.1,
          (linkEmail_frame i pd.email pid d).2.2.1⟩
      · rw [if_neg hne]
        exact ⟨rfl, rfl, rfl⟩
    cases hfd : pd.formData with
    | none => exact hX
    | some fd => exact hX

theorem claimLink_fold_frame (i : Nat) (pe : String → Option ProductData) :
    ∀ (l : List String) (d : DB),
      (l.foldl (claimLinkStep i pe) d).claimTokens = d.claimTokens ∧
      (l.foldl (claimLinkStep i pe) d).entitlements = d.entitlements ∧
      (l.foldl (claimLinkStep i pe) d).auditLog = d.auditLog := by
  intro l
  induction l with
  | nil => intro d; exact ⟨rfl, rfl, rfl⟩
  | cons x xs ih =>
    intro d
    rw [List.foldl_cons]
    obtain ⟨h1, h2, h3⟩ := ih (claimLinkStep i pe d x)
    obtain ⟨g1, g2, g3⟩ := claimLinkStep_frame i pe d x
    exact ⟨h1.trans g1, h2.trans g2, h3.trans g3⟩

/-- The binding the claim loop promises: some `(email, productId)` row. -/
def hasBinding (E : EmailStr) (pid : String) (d : DB) : Prop :=
  ∃ b ∈ d.identityEmails, b.email = E ∧ b.productId = pid

theorem linkEmail_hasBinding (i : Nat) (em : EmailStr) (pid : String) (d : DB) :
    hasBinding (toLowerStr em) pid (linkEmailToIdentity i em pid d) := by
  unfold linkEmailToIdentity
  cases hf : d.identityEmails.find?
      (fun b => decide (b.email = toLowerStr em ∧ b.productId = pid)) with
  | some b0 =>
    have hp := List.find?_some hf
    simp only [decide_eq_true_eq] at hp
    have hmem := List.mem_of_find?_eq_some hf
    have himg : ({ b0 with identityId := i } : IdentityEmail) ∈ d.identityEmails.map
        (fun (b : IdentityEmail) =>
          if b.email = toLowerStr em ∧ b.productId = pid then
            { b with identityId := i } else b) := by
      refine List.mem_map.mpr ⟨b0, hmem, ?_⟩
      rw [if_pos hp]
    exact ⟨{ b0 with identityId := i }, himg, hp.1, hp.2⟩
  | none =>
    exact ⟨⟨i, toLowerStr em, pid⟩,
      List.mem_append.mpr (Or.inr (List.mem_singleton.mpr rfl)), rfl, rfl⟩

theorem linkEmail_hasBinding_mono (i : Nat) (em : EmailStr) (pid : String) (d : DB)
    (E : EmailStr) (pidX : String) (h : hasBinding E pidX d) :
    hasBinding E pidX (linkEmailToIdentity i em pid d) := by
  obtain ⟨b, hb, he, hp⟩ := h
  unfold linkEmailToIdentity
  cases hf : d.identityEmails.find?
      (fun x => decide (x.email = toLowerStr em ∧ x.productId = pid)) with
  | some b0 =>
    by_cases hc : b.email = toLowerStr em ∧ b.productId = pid
    · refine ⟨{ b with identityId := i }, ?_, he, hp⟩
      exact List.mem_map.mpr ⟨b, hb, by rw [if_pos hc]⟩
    · refine ⟨b, ?_, he, hp⟩
      exact List.mem_map.mpr ⟨b, hb, by rw [if_neg hc]⟩
  | none =>
    exact ⟨b, List.mem_append.mpr (Or.inl hb), he, hp⟩

theorem claimLinkStep_hasBinding_mono (i : Nat) (pe : String → Option ProductData)
    (d : DB) (pid : String) (E : EmailStr) (pidX : String)
    (h : hasBinding E pidX d) : hasBinding E pidX (claimLinkStep i pe d pid) := by
  cases hpe : pe pid with
  | none =>
    rw [claimLinkStep_none i pe d pid hpe]
    exact h
  | some pd =>
    rw [claimLinkStep_some i pe d pid pd hpe]
    have h1 : hasBinding E pidX
        (if pd.email ≠ [] then linkEmailToIdentity i pd.email pid d else d) := by
      by_cases hne : pd.email ≠ []
      · rw [if_pos hne]
        exact linkEmail_hasBinding_mono i pd.email pid d E pidX h
      · rw [if_neg hne]
        exact h
    cases hfd : pd.formData with
    | none => exact h1
    | some fd => exact h1

theorem claimLinkStep_binds (i : Nat) (pe : String → Option ProductData)
    (d : DB) (pid : String) (pd : ProductData)
    (hpe : pe pid = some pd) (hne : pd.email ≠ []) :
    hasBinding (toLowerStr pd.email) pid (claimLinkStep i pe d pid) := by
  rw [claimLinkStep_some i pe d pid pd hpe]
  have h1 : hasBinding (toLowerStr pd.email) pid
      (if pd.email ≠ [] then linkEmailToIdentity i pd.email pid d else d) := by
    rw [if_pos hne]
    exact linkEmail_hasBinding i pd.email pid d
  cases hfd : pd.formData with
  | none => exact h1
  | some fd => exact h1

theorem claimLink_fold_hasBinding_mono (i : Nat) (pe : String → Option ProductData)
    (E : EmailStr) (pidX : String) :
    ∀ (l : List String) (d : DB), hasBinding E pidX d →
      hasBinding E pidX (l.foldl (claimLinkStep i pe) d) := by
  intro l
  induction l with
  | nil => intro d h; exact h
  | cons x xs ih =>
    intro d h
    rw [List.foldl_cons]
    exact ih _ (claimLinkStep_hasBinding_mono i pe d x E pidX h)

theorem claimLink_fold_binds (i : Nat) (pe : String → Option ProductData) :
    ∀ (l : List String) (d : DB) (pid : String) (pd : ProductData),
      pid ∈ l → pe pid = some pd → pd.email ≠ [] →
      hasBinding (toLowerStr pd.email) pid (l.foldl (claimLinkStep i pe) d) := by
  intro l
  induction l with
  | nil => intro d pid pd hmem _ _; cases hmem
  | cons x xs ih =>
    intro d pid pd hmem hpe hne
    rw [List.foldl_cons]
    cases List.mem_cons.mp hmem with
    | inl hx =>
      subst hx
      exact claimLink_fold_hasBinding_mono i pe (toLowerStr pd.email) pid xs _
        (claimLinkStep_binds i pe d pid pd hpe hne)
    | inr hxs => exact ih (claimLinkStep i pe d x) pid pd hxs hpe hne

theorem claimLinkStep_subs_mono (i : Nat) (pe : String → Option ProductData)
    (d : DB) (pid : String) (s : ProductSubmission)
    (h : s ∈ d.productSubmissions) :
    s ∈ (claimLinkStep i pe d pid).productSubmissions := by
  cases hpe : pe pid with
  | none =>
    rw [claimLinkStep_none i pe d pid hpe]
    exact h
  | some pd =>
    rw [claimLinkStep_some i pe d pid pd hpe]
    have h1 : s ∈ ((if pd.email ≠ [] then linkEmailToIdentity i pd.email pid d else d) :
        DB).productSubmissions := by
      by_cases hne : pd.email ≠ []
      · rw [if_pos hne, (linkEmail_frame i pd.email pid d).2.2.2]
        exact h
      · rw [if_neg hne]
        exact h
    cases hfd : pd.formData with
    | none => exact h1
    | some fd => exact List.mem_append.mpr (Or.inl h1)

theorem claimLinkStep_subs (i : Nat) (pe : String → Option ProductData)
    (d : DB) (pid : String) (pd : ProductData) (fd : String)
    (hpe : pe pid = some pd) (hfd : pd.formData = some fd) :
    (⟨i, pid, fd⟩ : ProductSubmission) ∈ (claimLinkStep i pe d pid).productSubmissions := by
  rw [claimLinkStep_some i pe d pid pd hpe, hfd]
  exact List.mem_append.mpr (Or.inr (List.mem_singleton.mpr rfl))

theorem claimLink_fold_subs_mono (i : Nat) (pe : String → Option ProductData)
    (s : ProductSubmission) :
    ∀ (l : List String) (d : DB), s ∈ d.productSubmissions →
      s ∈ (l.foldl (claimLinkStep i pe) d).productSubmissions := by
  intro l
  induction l with
  | nil => intro d h; exact h
  | cons x xs ih =>
    intro d h
    rw [List.foldl_cons]
    exact ih _ (claimLinkStep_subs_mono i pe d x s h)

theorem claimLink_fold_subs (i : Nat) (pe : String → Option ProductData) :
    ∀ (l : List String) (d : DB) (pid : String) (pd : ProductData) (fd : String),
      pid ∈ l → pe pid = some pd → pd.formData = some fd →
      (⟨i, pid, fd⟩ : ProductSubmission) ∈
        (l.foldl (claimLinkStep i pe) d).productSubmissions := by
  intro l
  induction l with
  | nil => intro d pid pd fd hmem _ _; cases hmem
  | cons x xs ih =>
    intro d pid pd fd hmem hpe hfd
    rw [List.foldl_cons]
    cases List.mem_cons.mp hmem with
    | inl hx =>
      subst hx
      exact claimLink_fold_subs_mono i pe _ xs _ (claimLinkStep_subs i pe d pid pd fd hpe hfd)
    | inr hxs => exact ih (claimLinkStep i pe d x) pid pd fd hxs hpe hfd

theorem validateClaim_ok_props (token : Nat) (now : Civil) (db : DB) (ctx : ClaimCtx)
    (hv : validateClaim token now db = .ok ctx) :
    db.claimTokens.find? (fun t => decide (t.token = token)) = some ctx.tokenRow ∧
    ctx.tokenRow.claimed = false := by
  unfold validateClaim at hv
  cases hf : db.claimTokens.find? (fun t => decide (t.token = token)) with
  | none =>
    rw [hf] at hv
    cases hv
  | some ct =>
    rw [hf] at hv
    have hv1 : (if ct.claimed = true then
          (Except.error "Token already claimed" : Except String ClaimCtx)
        else if civilLt ct.expiresAt now = true then Except.error "Token expired"
        else match db.bundles.find? (fun b => decide (b.id = ct.bundleId)),
              db.identities.find? (fun i => decide (i.id = ct.identityId)) with
          | some bundle, some identity => Except.ok ⟨ct, bundle, identity⟩
          | _, _ => Except.error "Invalid claim token") = Except.ok ctx := hv
    by_cases hc : ct.claimed = true
    · rw [if_pos hc] at hv1
      cases hv1
    · rw [if_neg hc] at hv1
      by_cases he : civilLt ct.expiresAt now = true
      · rw [if_pos he] at hv1
        cases hv1
      · rw [if_neg he] at hv1
        cases hb : db.bundles.find? (fun b => decide (b.id = ct.bundleId)) with
        | none =>
          rw [hb] at hv1
          cases hi : db.identities.find? (fun i => decide (i.id = ct.identityId)) with
          | none => rw [hi] at hv1; cases hv1
          | some idty => rw [hi] at hv1; cases hv1
        | some bundle =>
          rw [hb] at hv1
          cases hi : db.identities.find? (fun i => decide (i.id = ct.identityId)) with
          | none => rw [hi] at hv1; cases hv1
          | some idty =>
            rw [hi] at hv1
            cases hv1
            exact ⟨rfl, Bool.eq_false_iff.mpr hc⟩

theorem tokenClaimed_congr (token : Nat) (d1 d2 : DB)
    (h : d1.claimTokens = d2.claimTokens) :
    tokenClaimed token d1 = tokenClaimed token d2 := by
  unfold tokenClaimed
  rw [h]

theorem tokenClaimed_mark (token : Nat) (now : Civil) (d : DB) (ct : ClaimToken)
    (hf : d.claimTokens.find? (fun t => decide (t.token = token)) = some ct) :
    tokenClaimed token (claimMarkPhase token now d) = true := by
  have htk : ct.token = token := by simpa using List.find?_some hf
  unfold tokenClaimed claimMarkPhase
  rw [find?_map_of_pred_inv
    (fun (t : ClaimToken) =>
      if t.token = token then { t with claimed := true, claimedAt := some now } else t)
    (fun t => decide (t.token = token)) d.claimTokens ?inv, hf]
  · simp [htk]
  case inv =>
    intro x _
    by_cases hxt : x.token = token
    · simp [hxt]
    · simp [hxt]

/-- C3 (amended): `processClaim` is not a single atomic unit — its four
writes (email/form link loop, bundle grant, mark-claimed, audit) persist
as separate steps with no surrounding transaction — but they run in a
fixed order with the grant strictly before the claimed-mark: a validation
failure (unknown, already-claimed or expired token) performs no write; in
any prefix of the write sequence the token is never marked claimed unless
the whole bundle grant is already applied (the converse interruption,
grant applied but token unclaimed, is reachable); and a completed run
marks the token claimed, grants every bundle product, binds each supplied
non-empty product email, persists supplied form data, and appends exactly
one "claim" audit entry after the grant's. -/
theorem c3_claim_order (token : Nat) (pe : String → Option ProductData)
    (now : Civil) (db : DB) :
    (∀ err, validateClaim token now db = .error err →
      ∀ k, processClaimUpTo k token pe now db = .error err) ∧
    (∀ ctx, validateClaim token now db = .ok ctx →
      (∀ k db', processClaimUpTo k token pe now db = .ok db' →
        tokenClaimed token db' = true →
        ∀ pid ∈ ctx.bundle.productIds, ∃ r ∈ db'.entitlements,
          entKey r = (ctx.identity.id, pid, "bundle", "central")) ∧
      (∀ db', processClaim token pe now db = .ok db' →
        tokenClaimed token db' = true ∧
        (∀ pid ∈ ctx.bundle.productIds, ∃ r ∈ db'.entitlements,
          entKey r = (ctx.identity.id, pid, "bundle", "central")) ∧
        (∀ pid ∈ ctx.bundle.productIds, ∀ pd, pe pid = some pd → pd.email ≠ [] →
          hasBinding (toLowerStr pd.email) pid db') ∧
        (∀ pid ∈ ctx.bundle.productIds, ∀ pd fd, pe pid = some pd →
          pd.formData = some fd →
          (⟨ctx.identity.id, pid, fd⟩ : ProductSubmission) ∈ db'.productSubmissions) ∧
        db'.auditLog = db.auditLog ++
          [⟨"grant", ctx.identity.id, ctx.bundle.productIds, none⟩,
           ⟨"claim", ctx.identity.id, ctx.bundle.productIds, none⟩])) := by
  constructor
  · intro err herr k
    unfold processClaimUpTo
    rw [herr]
    rfl
  · intro ctx hv
    obtain ⟨hfind, hclaimed⟩ := validateClaim_ok_props token now db ctx hv
    have hrun : ∀ k, processClaimUpTo k token pe now db =
        .ok (runWrites ((claimWriteSeq ctx token pe now).take k) db) := by
      intro k
      unfold processClaimUpTo
      rw [hv]
      rfl
    have hfalse : tokenClaimed token db = false := by
      unfold tokenClaimed
      rw [hfind]
      exact hclaimed
    constructor
    · intro k db' hk hcl pid hp
      rw [hrun k] at hk
      have hdb := Except.ok.inj hk
      subst hdb
      rcases k with _ | _ | _ | _ | n
      · rw [tokenClaimed_congr token
          (runWrites ((claimWriteSeq ctx token pe now).take 0) db) db rfl, hfalse] at hcl
        exact absurd hcl (by decide)
      · have hct : (runWrites ((claimWriteSeq ctx token pe now).take 1) db).claimTokens =
            db.claimTokens :=
          (claimLink_fold_frame ctx.identity.id pe ctx.bundle.productIds db).1
        rw [tokenClaimed_congr token _ db hct, hfalse] at hcl
        exact absurd hcl (by decide)
      · have hct : (runWrites ((claimWriteSeq ctx token pe now).take 2) db).claimTokens =
            db.claimTokens :=
          (claimLink_fold_frame ctx.identity.id pe ctx.bundle.productIds db).1
        rw [tokenClaimed_congr token _ db hct, hfalse] at hcl
        exact absurd hcl (by decide)
      · obtain ⟨r, hr, hkey, _, _, _⟩ := grantEnts_row_exists (claimGrantParams ctx)
          (calculateExpiryDate ctx.bundle.durationType ctx.bundle.durationValue now) now
          ((runWrites ((claimWriteSeq ctx token pe now).take 1) db).entitlements,
           (runWrites ((claimWriteSeq ctx token pe now).take 1) db).nextEntitlementId) pid hp
        exact ⟨r, hr, hkey⟩
      · have htake : (claimWriteSeq ctx token pe now).take (n + 4) =
            claimWriteSeq ctx token pe now := by
          apply List.take_of_length_le
          rw [show (claimWriteSeq ctx token pe now).length = 4 from rfl]
          omega
        rw [htake] at hcl ⊢
        obtain ⟨r, hr, hkey, _, _, _⟩ := grantEnts_row_exists (claimGrantParams ctx)
          (calculateExpiryDate ctx.bundle.durationType ctx.bundle.durationValue now) now
          ((runWrites ((claimWriteSeq ctx token pe now).take 1) db).entitlements,
           (runWrites ((claimWriteSeq ctx token pe now).take 1) db).nextEntitlementId) pid hp
        exact ⟨r, hr, hkey⟩
    · intro db' hfull
      have hfull4 : processClaimUpTo 4 token pe now db = .ok db' := hfull
      rw [hrun 4] at hfull4
      have hdb := Except.ok.inj hfull4
      subst hdb
      have hlinkT : (runWrites ((claimWriteSeq ctx token pe now).take 1) db).claimTokens =
          db.claimTokens :=
        (claimLink_fold_frame ctx.identity.id pe ctx.bundle.productIds db).1
      have hlinkA : (runWrites ((claimWriteSeq ctx token pe now).take 1) db).auditLog =
          db.auditLog :=
        (claimLink_fold_frame ctx.identity.id pe ctx.bundle.productIds db).2.2
      refine ⟨?_, ?_, ?_, ?_, ?_⟩
      · have hf2 : (runWrites ((claimWriteSeq ctx token pe now).take 2) db).claimTokens.find?
            (fun t => decide (t.token = token)) = some ctx.tokenRow := by
          have h2 : (runWrites ((claimWriteSeq ctx token pe now).take 2) db).claimTokens =
              db.claimTokens := hlinkT
          rw [h2]
          exact hfind
        exact tokenClaimed_mark token now
          (runWrites ((claimWriteSeq ctx token pe now).take 2) db) ctx.tokenRow hf2
      · intro pid hp
        obtain ⟨r, hr, hkey, _, _, _⟩ := grantEnts_row_exists (claimGrantParams ctx)
          (calculateExpiryDate ctx.bundle.durationType ctx.bundle.durationValue now) now
          ((runWrites ((claimWriteSeq ctx token pe now).take 1) db).entitlements,
           (runWrites ((claimWriteSeq ctx token pe now).take 1) db).nextEntitlementId) pid hp
        exact ⟨r, hr, hkey⟩
      · intro pid hp pd hpe hne
        exact claimLink_fold_binds ctx.identity.id pe ctx.bundle.productIds db pid pd hp hpe hne
      · intro pid hp pd fd hpe hfd
        exact claimLink_fold_subs ctx.identity.id pe ctx.bundle.productIds db pid pd fd hp hpe hfd
      · have h2 : (runWrites ((claimWriteSeq ctx token pe now).take 4) db).auditLog =
            (((runWrites ((claimWriteSeq ctx token pe now).take 1) db).auditLog ++
              [⟨"grant", ctx.identity.id, ctx.bundle.productIds, none⟩]) ++
              [⟨"claim", ctx.identity.id, ctx.bundle.productIds, none⟩]) := rfl
        rw [h2, hlinkA, List.append_assoc]
        rfl

def ctC3 : ClaimToken := ⟨5, 1, 1, emW, none, ⟨2026, 1, 1⟩, false, none⟩

def idC3 : Identity := ⟨1, emW, none⟩

def dbC3 : DB :=
  { dbW with identities := [idC3], nextIdentityId := 2,
             claimTokens := [ctC3], nextTokenId := 6 }

def peC3 : String → Option ProductData := fun _ => none

def dbC3mid : DB :=
  match processClaimUpTo 2 5 peC3 nowW dbC3 with
  | .ok d => d
  | .error _ => dbC3

/-- Counterexample to C3's atomicity: interrupting `processClaim` after
its second persisted write (the bundle grant; there is no surrounding
transaction) leaves the whole bundle grant applied while the token is
still unclaimed — activation is not a single atomic unit. -/
theorem c3_counterexample :
    processClaimUpTo 2 5 peC3 nowW dbC3 = .ok dbC3mid ∧
    dbC3mid.entitlements.map entKey =
      [(1, "rezume", "bundle", "central"), (1, "aicoach", "bundle", "central")] ∧
    tokenClaimed 5 dbC3mid = false :=
  ⟨rfl, by decide, by decide⟩

def dbC3done : DB :=
  match processClaim 5 peC3 nowW dbC3 with
  | .ok d => d
  | .error _ => dbC3

/-- Witness for C3's ordering theorem at a concrete token. -/
theorem c3_claim_order_witness :
    (validateClaim 5 nowW dbC3 = .ok ⟨ctC3, bundleW, idC3⟩ ∧
     processClaim 5 peC3 nowW dbC3 = .ok dbC3done) ∧
    (tokenClaimed 5 dbC3done = true ∧
     (∀ pid ∈ bundleW.productIds, ∃ r ∈ dbC3done.entitlements,
        entKey r = (idC3.id, pid, "bundle", "central")) ∧
     dbC3done.auditLog = dbC3.auditLog ++
       [⟨"grant", idC3.id, bundleW.productIds, none⟩,
        ⟨"claim", idC3.id, bundleW.productIds, none⟩]) :=
  ⟨⟨rfl, rfl⟩, by
    obtain ⟨hcl, hrows, _, _, haud⟩ :=
      ((c3_claim_order 5 peC3 nowW dbC3).2 ⟨ctC3, bundleW, idC3⟩ rfl).2 dbC3done rfl
    exact ⟨hcl, hrows, haud⟩⟩

/-! ## C6 -/

/-- Counterexample to C6: processing a checkout-completed event for a
form-free bundle grants both bundle products but attempts no sync push to
any remote app — the sync-push trace stays empty. -/
theorem c6_counterexample :
    (processStripeWebhookEvent eventW nowW dbW).entitlements.map entKey =
      [(1, "rezume", "bundle", "central"), (1, "aicoach", "bundle", "central")] ∧
    (processStripeWebhookEvent eventW nowW dbW).syncPushes = [] :=
  ⟨by decide, by decide⟩

/-- C6 (amended): the form-free checkout path grants every bundle product
and sends one confirmation email, but never triggers the Cross-App Sync
Dispatcher — the sync-push trace is left exactly unchanged
(`grantAccessAndSync` is never called after a grant). -/
theorem c6_no_sync_after_grant (s : CheckoutSession) (now : Civil) (db : DB)
    (em : EmailStr) (pr : String) (bundle : Bundle)
    (he : s.customerEmail = some em) (hp : s.lineItemPriceId = some pr)
    (hb : db.bundles.find? (fun b => decide (b.stripePriceId = pr)) = some bundle)
    (hforms : db.products.filter
      (fun p => decide (p.id ∈ bundle.productIds) && p.hasFormSchema) = []) :
    ∃ st, handleCheckoutCompleted s now db = .ok (⟨true, .accessGranted⟩, st) ∧
      (∀ pid ∈ bundle.productIds, ∃ r ∈ st.entitlements,
        entKey r = ((gocCore em s.customerId (db.identities, db.nextIdentityId)).1.id,
          pid, "bundle", "central")) ∧
      st.emailsSent = db.emailsSent + 1 ∧
      st.syncPushes = db.syncPushes := by
  obtain ⟨B, hG⟩ := checkoutGrantedState_fields s now db em bundle
  refine ⟨checkoutGrantedState s now db em bundle,
    handleCheckout_formFree s now db em pr bundle he hp hb hforms, ?_, ?_, ?_⟩
  · intro pid hpid
    obtain ⟨r, hr, hkey, _, _, _⟩ := grantEnts_row_exists
      (bundleGrantParams (gocCore em s.customerId (db.identities, db.nextIdentityId)).1.id
        bundle)
      (calculateExpiryDate bundle.durationType bundle.durationValue now) now
      (db.entitlements, db.nextEntitlementId) pid hpid
    refine ⟨r, ?_, hkey⟩
    rw [hG]
    exact hr
  · rw [hG]
  · rw [hG]

/-- Witness for C6 over the concrete form-free bundle purchase. -/
theorem c6_no_sync_after_grant_witness :
    (sessionW.customerEmail = some emW ∧ sessionW.lineItemPriceId = some "price_1" ∧
     dbW.bundles.find? (fun b => decide (b.stripePriceId = "price_1")) = some bundleW ∧
     dbW.products.filter
       (fun p => decide (p.id ∈ bundleW.productIds) && p.hasFormSchema) = []) ∧
    (∃ st, handleCheckoutCompleted sessionW nowW dbW = .ok (⟨true, .accessGranted⟩, st) ∧
      (∀ pid ∈ bundleW.productIds, ∃ r ∈ st.entitlements,
        entKey r = ((gocCore emW sessionW.customerId
          (dbW.identities, dbW.nextIdentityId)).1.id, pid, "bundle", "central")) ∧
      st.emailsSent = dbW.emailsSent + 1 ∧
      st.syncPushes = dbW.syncPushes) :=
  ⟨⟨rfl, rfl, by decide, by decide⟩,
    c6_no_sync_after_grant sessionW nowW dbW emW "price_1" bundleW rfl rfl
      (by decide) (by decide)⟩

/-! ## C4 -/

/-- The end state of two racing `processClaim` calls on one token under
the schedule the source permits: both `findUnique` validations read the
same snapshot (before either write commits), then both write sequences
run. Nothing in the source forbids this interleaving: the claimed-mark is
a plain `update` keyed only by the token, not a conditional
claim-if-unclaimed update, and there is no transaction. -/
def dbC4race : DB :=
  match validateClaim 5 nowW dbC3 with
  | .ok ctx => runWrites (claimWriteSeq ctx 5 peC3 nowW)
      (runWrites (claimWriteSeq ctx 5 peC3 nowW) dbC3)
  | .error _ => dbC3

/-- C4: with the token unclaimed, both racing calls pass validation
against the shared snapshot and both write sequences apply — the final
state carries two "claim" audit entries (a double activation), because
the claimed flag is set by read-then-write application logic instead of a
conditional claim-if-unclaimed storage update. Once one call has
committed its mark, a later validation does fail, showing the guard
exists only outside the race window. -/
theorem c4_race_double_claim :
    validateClaim 5 nowW dbC3 = .ok ⟨ctC3, bundleW, idC3⟩ ∧
    tokenClaimed 5 dbC3 = false ∧
    dbC4race.auditLog.countP (fun a => decide (a.action = "claim")) = 2 ∧
    dbC4race.auditLog.countP (fun a => decide (a.action = "grant")) = 2 ∧
    processClaim 5 peC3 nowW dbC3done = .error "Token already claimed" :=
  ⟨rfl, by decide, by decide, by decide, rfl⟩

end CD